import Mathlib

/-!
# Agency: composition and execution model

A shallow embedding of `core/pipe.go` (package `core`: `PipeConfig`, `PipeOption`,
`Pipe` with `NewPipe`, `Intercept`, `Then`, `Execute`, `WithOptions`) and of
`agency.go` (package `agency`: `Operation`, `OperationConfig`).

Modelling conventions.

* Handlers and interceptors are Go closures with side effects.  They are embedded
  as state-passing functions over an external world `σ`.
* Go's `error` is `Option Err` (`none` is `nil`).  The `Message` type declarations
  are not part of the two source files, so the message type is a parameter `Msg`
  whose `default` stands for the value written `nil` in `pipe.go` and `Message{}`
  in `agency.go`.
* `*Pipe` is a pointer.  No method ever reassigns the `handler` field of an
  existing `Pipe`, while `Intercept` reassigns `interceptor` in place.  A pointer
  is therefore embedded as its address together with the immutable handler, and
  the `interceptor` fields of all allocated `Pipe` objects live in a `Store`.
  The closures built by `Then` and `WithOptions` capture the pointer `p`, so they
  read `p.interceptor` when they run; this is why a handler takes the store of the
  moment of the call as its first argument.
* Handlers and interceptors act on `σ` only: they do not allocate or mutate pipes
  while a pipeline runs.
-/

namespace Agency

/-! ## Package core: configuration -/

/-- The record `PipeConfig` of `pipe.go`. -/
structure PipeConfig where
  Prompt : String
deriving DecidableEq, Repr

/-- The type `PipeOption` of `pipe.go`, `func(*PipeConfig)`: an in-place update of a
configuration, embedded as a function from the old contents to the new ones. -/
abbrev PipeOption := PipeConfig → PipeConfig

/-- The loop `for _, option := range options { option(c) }` of `NewPipeConfig`. -/
def NewPipeConfig.loop : List PipeOption → PipeConfig → PipeConfig
  | [], c => c
  | option :: rest, c => NewPipeConfig.loop rest (option c)

/-- The constructor `NewPipeConfig(options...)`: `c := &PipeConfig{}`, then the loop. -/
def NewPipeConfig (options : List PipeOption) : PipeConfig :=
  NewPipeConfig.loop options { Prompt := "" }

/-- The option `WithPrompt(prompt, args...)`; `sprintf` stands for `fmt.Sprintf`. -/
def WithPrompt {Arg : Type} (sprintf : String → List Arg → String)
    (prompt : String) (args : List Arg) : PipeOption :=
  fun c => { c with Prompt := sprintf prompt args }

/-! ## Package core: pipes -/

section Pipes

variable {Ctx Msg Err σ : Type}

/-- The pair `(Message, error)` returned by a handler. -/
abbrev Outcome (Msg Err : Type) := Msg × Option Err

/-- The type `func(Message, ...PipeOption)` of an interceptor, acting on the world. -/
abbrev Interceptor (Msg σ : Type) := Msg → List PipeOption → σ → σ

/-- The `interceptor` fields of the allocated `Pipe` objects, indexed by address;
`none` is a nil interceptor. -/
abbrev Store (Msg σ : Type) := List (Option (Interceptor Msg σ))

/-- A caller-supplied handler `func(context.Context, Message, ...PipeOption) (Message, error)`. -/
abbrev Handler (Ctx Msg Err σ : Type) :=
  Ctx → Msg → List PipeOption → σ → Outcome Msg Err × σ

/-- The contents of a `handler` field: a handler that may read the interceptor
fields of the pipes its closure captured, as they are when it is called. -/
abbrev Closure (Ctx Msg Err σ : Type) := Store Msg σ → Handler Ctx Msg Err σ

/-- Reading the field `interceptor` of the object at address `a`. -/
def Store.read (s : Store Msg σ) (a : Nat) : Option (Interceptor Msg σ) :=
  (s.get? a).join

/-- Assigning the field `interceptor` of the object at address `a`. -/
def Store.write (s : Store Msg σ) (a : Nat) (v : Option (Interceptor Msg σ)) :
    Store Msg σ :=
  s.set a v

/-- Allocating a new object whose `interceptor` field is `v`. -/
def Store.alloc (s : Store Msg σ) (v : Option (Interceptor Msg σ)) :
    Nat × Store Msg σ :=
  (s.length, s ++ [v])

/-- A value of the struct type `Pipe`. -/
structure Pipe (Ctx Msg Err σ : Type) where
  handler : Closure Ctx Msg Err σ
  interceptor : Option (Interceptor Msg σ)

/-- A pointer `*Pipe`: the address of the object and its (never reassigned) handler. -/
structure PipePtr (Ctx Msg Err σ : Type) where
  addr : Nat
  handler : Closure Ctx Msg Err σ

/-- The dereference `*p`, a copy of the object `p` points to. -/
def PipePtr.deref (p : PipePtr Ctx Msg Err σ) (s : Store Msg σ) : Pipe Ctx Msg Err σ :=
  { handler := p.handler, interceptor := s.read p.addr }

/-- Storing a `Pipe` value in a variable and taking its address (`v := ...; &v`). -/
def Pipe.addressOf (v : Pipe Ctx Msg Err σ) (s : Store Msg σ) :
    PipePtr Ctx Msg Err σ × Store Msg σ :=
  ({ addr := (s.alloc v.interceptor).1, handler := v.handler }, (s.alloc v.interceptor).2)

/-- The constructor `NewPipe(handler)`: `&Pipe{handler: handler}`. -/
def NewPipe (handler : Handler Ctx Msg Err σ) (s : Store Msg σ) :
    PipePtr Ctx Msg Err σ × Store Msg σ :=
  ({ addr := (s.alloc none).1, handler := fun _ => handler }, (s.alloc none).2)

/-- The method `Intercept`: `p.interceptor = interceptor; return p`. -/
def Pipe.Intercept (p : PipePtr Ctx Msg Err σ) (interceptor : Option (Interceptor Msg σ))
    (s : Store Msg σ) : PipePtr Ctx Msg Err σ × Store Msg σ :=
  (p, s.write p.addr interceptor)

/-- The statement `if p.interceptor != nil { p.interceptor(output, options...) }`. -/
def callInterceptor (i : Option (Interceptor Msg σ)) (output : Msg)
    (options : List PipeOption) (w : σ) : σ :=
  match i with
  | some f => f output options w
  | none => w

/-- The closure that `Then` installs as the handler of the pipe it returns. -/
def Pipe.Then.handler [Inhabited Msg] (p : PipePtr Ctx Msg Err σ)
    (next : Pipe Ctx Msg Err σ) : Closure Ctx Msg Err σ :=
  fun st ctx input options w =>
    match p.handler st ctx input [] w with
    | ((_, some err), w1) => ((default, some err), w1)
    | ((output, none), w1) =>
        next.handler st ctx output [] (callInterceptor (st.read p.addr) output options w1)

/-- The method `Then`: `&Pipe{interceptor: p.interceptor, handler: func ...}`. -/
def Pipe.Then [Inhabited Msg] (p : PipePtr Ctx Msg Err σ) (next : Pipe Ctx Msg Err σ)
    (s : Store Msg σ) : PipePtr Ctx Msg Err σ × Store Msg σ :=
  ({ addr := (s.alloc (s.read p.addr)).1, handler := Pipe.Then.handler p next },
    (s.alloc (s.read p.addr)).2)

/-- The method `Execute`: `return p.handler(ctx, bb)`, run in the store `st` of the
moment of the call. -/
def Pipe.Execute (p : PipePtr Ctx Msg Err σ) (ctx : Ctx) (bb : Msg) (st : Store Msg σ)
    (w : σ) : Outcome Msg Err × σ :=
  p.handler st ctx bb [] w

/-- The method `WithOptions`: a `Pipe` value whose handler calls
`p.handler(ctx, msg, options...)` and whose interceptor is `p.interceptor`. -/
def Pipe.WithOptions (p : PipePtr Ctx Msg Err σ) (options : List PipeOption)
    (s : Store Msg σ) : Pipe Ctx Msg Err σ × Store Msg σ :=
  ({ handler := fun st ctx msg _ w => p.handler st ctx msg options w,
     interceptor := s.read p.addr }, s)

/-- The closure `h` reads no `interceptor` field at an address `n` or above: it
captured only pipes allocated before address `n`. -/
def ReadsBelow (n : Nat) (h : Closure Ctx Msg Err σ) : Prop :=
  ∀ st st0 : Store Msg σ, (∀ a : Nat, a < n → st.read a = st0.read a) → h st = h st0

/-- The pointer `A := NewPipe(hA)` of a two-step composition. -/
def operandA (hA : Handler Ctx Msg Err σ) (s : Store Msg σ) : PipePtr Ctx Msg Err σ :=
  (NewPipe hA s).1

/-- The pointer `B := NewPipe(hB)`, allocated after `A.Intercept(I0)` was called. -/
def operandB (hA hB : Handler Ctx Msg Err σ) (I0 : Option (Interceptor Msg σ))
    (s : Store Msg σ) : PipePtr Ctx Msg Err σ :=
  (NewPipe hB (Pipe.Intercept (operandA hA s) I0 (NewPipe hA s).2).2).1

/-- The composition `c := A.Then(*B)` of `A := NewPipe(hA)`, on which `Intercept(I0)`
was called, and `B := NewPipe(hB)`; together with the store after building it. -/
def composed [Inhabited Msg] (hA hB : Handler Ctx Msg Err σ)
    (I0 : Option (Interceptor Msg σ)) (s : Store Msg σ) :
    PipePtr Ctx Msg Err σ × Store Msg σ :=
  Pipe.Then (operandA hA s)
    (PipePtr.deref (operandB hA hB I0 s)
      (NewPipe hB (Pipe.Intercept (operandA hA s) I0 (NewPipe hA s).2).2).2)
    (NewPipe hB (Pipe.Intercept (operandA hA s) I0 (NewPipe hA s).2).2).2

/-- The chain `p.Then(q1).Then(q2)...Then(qn)`: `Then` called again on each result. -/
def thenChain [Inhabited Msg] (p : PipePtr Ctx Msg Err σ) :
    List (Pipe Ctx Msg Err σ) → Store Msg σ → PipePtr Ctx Msg Err σ × Store Msg σ
  | [], s => (p, s)
  | next :: rest, s => thenChain (Pipe.Then p next s).1 rest (Pipe.Then p next s).2

end Pipes

/-! ## Package agency: operations -/

section Operations

variable {Ctx Msg Err σ Arg : Type}

/-- The record `OperationConfig` of `agency.go`; `Messages` is a slice, `none` is the
nil slice. -/
structure OperationConfig (Msg : Type) where
  Prompt : String
  Messages : Option (List Msg)

/-- The type `OperationHandler`.  The handler is handed a pointer to the
configuration, so it returns the contents it leaves there. -/
abbrev OperationHandler (Ctx Msg Err σ : Type) :=
  Ctx → Msg → OperationConfig Msg → σ → Outcome Msg Err × OperationConfig Msg × σ

/-- The allocated `OperationConfig` objects, indexed by address. -/
abbrev ConfigStore (Msg : Type) := List (OperationConfig Msg)

/-- Reading the object at address `a`. -/
def ConfigStore.read (s : ConfigStore Msg) (a : Nat) : OperationConfig Msg :=
  s.getD a { Prompt := "", Messages := none }

/-- A pointer `*Operation`: the handler and the pointer `config`, neither of which
is ever reassigned. -/
structure Operation (Ctx Msg Err σ : Type) where
  handler : OperationHandler Ctx Msg Err σ
  config : Nat

/-- The method `Config`: `return p.config`. -/
def Operation.Config (p : Operation Ctx Msg Err σ) : Nat :=
  p.config

/-- The constructor `NewOperation(handler)`, with `config: &OperationConfig{}`. -/
def NewOperation (handler : OperationHandler Ctx Msg Err σ) (s : ConfigStore Msg) :
    Operation Ctx Msg Err σ × ConfigStore Msg :=
  ({ handler := handler, config := s.length }, s ++ [{ Prompt := "", Messages := none }])

/-- The method `Operation.Execute`: the handler is run on `p.config`; on an error the
result is `Message{}, err`, otherwise `output, nil`. -/
def Operation.Execute [Inhabited Msg] (p : Operation Ctx Msg Err σ) (ctx : Ctx)
    (input : Msg) (s : ConfigStore Msg) (w : σ) :
    Outcome Msg Err × ConfigStore Msg × σ :=
  match p.handler ctx input (s.read p.config) w with
  | ((_, some err), c, w1) => ((default, some err), s.set p.config c, w1)
  | ((output, none), c, w1) => ((output, none), s.set p.config c, w1)

/-- The method `SetPrompt`: `p.config.Prompt = fmt.Sprintf(prompt, args...); return p`. -/
def Operation.SetPrompt (sprintf : String → List Arg → String)
    (p : Operation Ctx Msg Err σ) (prompt : String) (args : List Arg)
    (s : ConfigStore Msg) : Operation Ctx Msg Err σ × ConfigStore Msg :=
  (p, s.set p.config { s.read p.config with Prompt := sprintf prompt args })

/-- The method `SetMessages`: `p.config.Messages = msgs; return p`. -/
def Operation.SetMessages (p : Operation Ctx Msg Err σ) (msgs : Option (List Msg))
    (s : ConfigStore Msg) : Operation Ctx Msg Err σ × ConfigStore Msg :=
  (p, s.set p.config { s.read p.config with Messages := msgs })

/-- One call of a setter of `Operation`, with its arguments. -/
inductive SetterCall (Msg Arg : Type) where
  | setPrompt (prompt : String) (args : List Arg)
  | setMessages (msgs : Option (List Msg))

/-- Making one setter call on the operation `p`. -/
def SetterCall.run (sprintf : String → List Arg → String) (p : Operation Ctx Msg Err σ)
    (c : SetterCall Msg Arg) (s : ConfigStore Msg) :
    Operation Ctx Msg Err σ × ConfigStore Msg :=
  match c with
  | SetterCall.setPrompt prompt args => Operation.SetPrompt sprintf p prompt args s
  | SetterCall.setMessages msgs => Operation.SetMessages p msgs s

/-- A fluent chain of setter calls `p.SetX(...).SetY(...)...`: each call is made on
the operation the call before returned. -/
def runSetters (sprintf : String → List Arg → String) (p : Operation Ctx Msg Err σ) :
    List (SetterCall Msg Arg) → ConfigStore Msg → Operation Ctx Msg Err σ × ConfigStore Msg
  | [], s => (p, s)
  | c :: cs, s => runSetters sprintf (c.run sprintf p s).1 cs (c.run sprintf p s).2

/-- The formatted prompts written by the `SetPrompt` calls of a sequence, in order. -/
def promptsWritten (sprintf : String → List Arg → String) :
    List (SetterCall Msg Arg) → List String
  | [] => []
  | SetterCall.setPrompt prompt args :: cs => sprintf prompt args :: promptsWritten sprintf cs
  | SetterCall.setMessages _ :: cs => promptsWritten sprintf cs

/-- The arguments of the `SetMessages` calls of a sequence, in order. -/
def messagesWritten : List (SetterCall Msg Arg) → List (Option (List Msg))
  | [] => []
  | SetterCall.setPrompt _ _ :: cs => messagesWritten cs
  | SetterCall.setMessages msgs :: cs => msgs :: messagesWritten cs

end Operations

/-! ## Instrumented handlers

The stubs used to observe calls: a recording handler appends the call it receives to
a log kept in the world and otherwise behaves as the handler it wraps. -/

section Recording

variable {Ctx Msg Err τ : Type}

/-- One observed call: which stub was called, with which message and options. -/
inductive Event (Msg : Type) where
  | handler (name : Nat) (input : Msg) (options : List PipeOption)
  | interceptor (name : Nat) (output : Msg) (options : List PipeOption)

/-- Whether an event is a handler call. -/
def Event.isHandler : Event Msg → Bool
  | Event.handler _ _ _ => true
  | Event.interceptor _ _ _ => false

/-- The handler `h` instrumented to record each call under `name`. -/
def recordH (name : Nat) (h : Handler Ctx Msg Err τ) :
    Handler Ctx Msg Err (List (Event Msg) × τ) :=
  fun ctx m options w =>
    ((h ctx m options w.2).1, (w.1 ++ [Event.handler name m options], (h ctx m options w.2).2))

/-- The interceptor `i` instrumented to record each call under `name`. -/
def recordI (name : Nat) (i : Interceptor Msg τ) :
    Interceptor Msg (List (Event Msg) × τ) :=
  fun m options w => (w.1 ++ [Event.interceptor name m options], i m options w.2)

/-- A handler without effects: its result is a function of its arguments. -/
def pureH (f : Ctx → Msg → List PipeOption → Outcome Msg Err) : Handler Ctx Msg Err τ :=
  fun ctx m options w => (f ctx m options, w)

/-- An interceptor `i` that is not instrumented: it leaves the log alone. -/
def liftI (i : Interceptor Msg τ) : Interceptor Msg (List (Event Msg) × τ) :=
  fun m options w => (w.1, i m options w.2)

/-- The instrumented steps `P(k), P(k+1), ...` passed to `Then`: pipe values whose
handlers record their calls under consecutive names; each comes with the content of
its own `interceptor` field. -/
def stubs (k : Nat) :
    List (Handler Ctx Msg Err τ × Option (Interceptor Msg (List (Event Msg) × τ))) →
      List (Pipe Ctx Msg Err (List (Event Msg) × τ))
  | [] => []
  | hj :: rest => { handler := fun _ => recordH k hj.1, interceptor := hj.2 } :: stubs (k + 1) rest

/-- The instrumented pipeline `P0.Then(P1)...Then(Pn)` where `P0 := NewPipe(h0)` had
`Intercept(J)` called on it before composing (`J = none`: nothing is attached). -/
def pipeline [Inhabited Msg] (J : Option (Interceptor Msg (List (Event Msg) × τ)))
    (h0 : Handler Ctx Msg Err τ)
    (rest : List (Handler Ctx Msg Err τ × Option (Interceptor Msg (List (Event Msg) × τ))))
    (s : Store Msg (List (Event Msg) × τ)) :
    PipePtr Ctx Msg Err (List (Event Msg) × τ) × Store Msg (List (Event Msg) × τ) :=
  thenChain (NewPipe (recordH 0 h0) s).1 (stubs 1 rest)
    (Pipe.Intercept (NewPipe (recordH 0 h0) s).1 J (NewPipe (recordH 0 h0) s).2).2

/-- The steps after the first all succeed: `Flow ctx oi hs a t outs t2` says that the
handlers `hs`, run one after the other from the previous output `a` and the state
`t`, each preceded by the interceptor `oi` (if any) on the message it is about to
receive, return the outputs `outs` with nil errors and leave the state `t2`. -/
inductive Flow (ctx : Ctx) (oi : Option (Interceptor Msg τ)) :
    List (Handler Ctx Msg Err τ) → Msg → τ → List Msg → τ → Prop
  | nil (a : Msg) (t : τ) : Flow ctx oi [] a t [] t
  | cons (h : Handler Ctx Msg Err τ) (hs : List (Handler Ctx Msg Err τ)) (a b : Msg)
      (t t1 t2 : τ) (outs : List Msg) :
      h ctx a [] (callInterceptor oi a [] t) = ((b, none), t1) →
      Flow ctx oi hs b t1 outs t2 → Flow ctx oi (h :: hs) a t (b :: outs) t2

/-- The event an interceptor logs when it is called on `a` at a junction inside a
pipeline (where it is passed no options): one call under `name` when the interceptor
is instrumented (`tag = some name`), nothing when the pipeline has no instrumented
interceptor (`tag = none`). -/
def icptCall (tag : Option Nat) (a : Msg) : List (Event Msg) :=
  match tag with
  | some name => [Event.interceptor name a []]
  | none => []

/-- The calls recorded from a junction on: the step named `k` receives `a`, preceded
by the call of the interceptor on `a`; then the same for the steps `k+1, ...`, each
receiving the output of the step before. `outs` lists the messages returned by the
steps `k, k+1, ...`, so a step is called once for each of them. -/
def calls (tag : Option Nat) (k : Nat) : Msg → List Msg → List (Event Msg)
  | _, [] => []
  | a, b :: outs => icptCall tag a ++ Event.handler k a [] :: calls tag (k + 1) b outs

/-- The number of interceptor calls in a log. -/
def interceptorCount : List (Event Msg) → Nat
  | [] => 0
  | Event.handler _ _ _ :: rest => interceptorCount rest
  | Event.interceptor _ _ _ :: rest => interceptorCount rest + 1

/-- The names of the handlers called in a log, in order. -/
def handlerNames : List (Event Msg) → List Nat
  | [] => []
  | Event.handler name _ _ :: rest => name :: handlerNames rest
  | Event.interceptor _ _ _ :: rest => handlerNames rest

/-- The store after `A := NewPipe(hA)`, `A.Intercept(JA)`, `B := NewPipe(hB)` and
`B.Intercept(JB)`, with instrumented handlers named 0 and 1. -/
def nestStore (JA JB : Option (Interceptor Msg (List (Event Msg) × τ)))
    (hA hB : Handler Ctx Msg Err τ) (s : Store Msg (List (Event Msg) × τ)) :
    Store Msg (List (Event Msg) × τ) :=
  (Pipe.Intercept
    (NewPipe (recordH 1 hB)
      (Pipe.Intercept (NewPipe (recordH 0 hA) s).1 JA (NewPipe (recordH 0 hA) s).2).2).1 JB
    (NewPipe (recordH 1 hB)
      (Pipe.Intercept (NewPipe (recordH 0 hA) s).1 JA (NewPipe (recordH 0 hA) s).2).2).2).2

/-- The pointer `A` of the two nestings. -/
def nestA (hA : Handler Ctx Msg Err τ) (s : Store Msg (List (Event Msg) × τ)) :
    PipePtr Ctx Msg Err (List (Event Msg) × τ) :=
  (NewPipe (recordH 0 hA) s).1

/-- The pointer `B` of the two nestings. -/
def nestB (JA : Option (Interceptor Msg (List (Event Msg) × τ)))
    (hA hB : Handler Ctx Msg Err τ) (s : Store Msg (List (Event Msg) × τ)) :
    PipePtr Ctx Msg Err (List (Event Msg) × τ) :=
  (NewPipe (recordH 1 hB)
    (Pipe.Intercept (NewPipe (recordH 0 hA) s).1 JA (NewPipe (recordH 0 hA) s).2).2).1

/-- The nesting `(A.Then(B)).Then(C)`. -/
def leftNesting [Inhabited Msg] (JA JB : Option (Interceptor Msg (List (Event Msg) × τ)))
    (hA hB : Handler Ctx Msg Err τ) (C : Pipe Ctx Msg Err (List (Event Msg) × τ))
    (s : Store Msg (List (Event Msg) × τ)) :
    PipePtr Ctx Msg Err (List (Event Msg) × τ) × Store Msg (List (Event Msg) × τ) :=
  Pipe.Then
    (Pipe.Then (nestA hA s) (PipePtr.deref (nestB JA hA hB s) (nestStore JA JB hA hB s))
      (nestStore JA JB hA hB s)).1 C
    (Pipe.Then (nestA hA s) (PipePtr.deref (nestB JA hA hB s) (nestStore JA JB hA hB s))
      (nestStore JA JB hA hB s)).2

/-- The nesting `A.Then(B.Then(C))`. -/
def rightNesting [Inhabited Msg] (JA JB : Option (Interceptor Msg (List (Event Msg) × τ)))
    (hA hB : Handler Ctx Msg Err τ) (C : Pipe Ctx Msg Err (List (Event Msg) × τ))
    (s : Store Msg (List (Event Msg) × τ)) :
    PipePtr Ctx Msg Err (List (Event Msg) × τ) × Store Msg (List (Event Msg) × τ) :=
  Pipe.Then (nestA hA s)
    (PipePtr.deref (Pipe.Then (nestB JA hA hB s) C (nestStore JA JB hA hB s)).1
      (Pipe.Then (nestB JA hA hB s) C (nestStore JA JB hA hB s)).2)
    (Pipe.Then (nestB JA hA hB s) C (nestStore JA JB hA hB s)).2

end Recording

section Junctions

variable {Ctx Msg Err σ : Type}

/-- One junction as the specification words it: an error so far is passed on with a
nil message; otherwise the interceptor (if any) sees the intermediate output, with
no options, and the next handler is run on that same output. -/
def junction [Inhabited Msg] (i : Option (Interceptor Msg σ)) (st : Store Msg σ) (ctx : Ctx)
    (r : Outcome Msg Err × σ) (next : Pipe Ctx Msg Err σ) : Outcome Msg Err × σ :=
  match r with
  | ((_, some e), w) => ((default, some e), w)
  | ((a, none), w) => next.handler st ctx a [] (callInterceptor i a [] w)

end Junctions

/-! ## Concrete pipes and operations used as test inputs -/

namespace Example

/-- The message type of the concrete pipes: an integer payload, `none` for nil. -/
abbrev M := Option Int

/-- A handler doubling an integer payload. -/
def double {τ : Type} : Handler Unit M String τ :=
  pureH (fun _ m _ => (m.map (fun x => 2 * x), none))

/-- A handler adding one to an integer payload. -/
def addOne {τ : Type} : Handler Unit M String τ :=
  pureH (fun _ m _ => (m.map (fun x => x + 1), none))

/-- A handler that fails with the error `e` while returning its input as message. -/
def failing {τ : Type} (e : String) : Handler Unit M String τ :=
  pureH (fun _ m _ => (m, some e))

/-- The store after `A := NewPipe(double)` and `B := NewPipe(addOne)`. -/
def store2 {τ : Type} : Store M τ :=
  (NewPipe (addOne : Handler Unit M String τ)
    (NewPipe (double : Handler Unit M String τ) []).2).2

/-- The pipe `A := NewPipe(double)`, allocated first. -/
def pipeA {τ : Type} : PipePtr Unit M String τ :=
  (NewPipe double []).1

/-- The pipe `B := NewPipe(addOne)`, allocated second. -/
def pipeB {τ : Type} : PipePtr Unit M String τ :=
  (NewPipe addOne (NewPipe (double : Handler Unit M String τ) []).2).1

/-- An interceptor that counts its calls in a world made of one counter. -/
def tick : Interceptor M Nat :=
  fun _ _ w => w + 1

/-- A handler whose output message is the current value of the counter. -/
def readWorld : Handler Unit M String Nat :=
  fun _ _ _ w => ((some (w : Int), none), w)

/-- An interceptor without effect on the world. -/
def quiet {τ : Type} : Interceptor M τ :=
  fun _ _ t => t

/-- The world of the instrumented examples: the log of calls. -/
abbrev Log := List (Event M) × Unit

/-- An instrumented pipe value: the handler `h` recording its calls under `name`. -/
def stub (name : Nat) (h : Handler Unit M String Unit) : Pipe Unit M String Log :=
  { handler := fun _ => recordH name h, interceptor := none }

/-- The pointer returned by `NewPipe` on the instrumented handler `h`, first allocation. -/
def stubPtr (name : Nat) (h : Handler Unit M String Unit) : PipePtr Unit M String Log :=
  (NewPipe (recordH name h) []).1

/-- The store after that first allocation. -/
def stubStore : Store M Log :=
  (NewPipe (recordH 0 double : Handler Unit M String Log) []).2

/-- The pipe `NewPipe(double)` over the world made of one counter, first allocation. -/
def countA : PipePtr Unit M String Nat :=
  (NewPipe double []).1

/-- The store after that allocation. -/
def countStore : Store M Nat :=
  (NewPipe (double : Handler Unit M String Nat) []).2

/-- A pipe value whose handler is `readWorld`. -/
def readB : Pipe Unit M String Nat :=
  { handler := fun _ => readWorld, interceptor := none }

/-- The steps `B` (adds one) and `C` (doubles) passed to `Then` in the three-step chain. -/
def stepsBC : List (Handler Unit M String Unit × Option (Interceptor M Log)) :=
  [(addOne, none), (double, none)]

/-- The steps `B` (fails with "boom", returning its input) and `C` (doubles). -/
def stepsFailC : List (Handler Unit M String Unit × Option (Interceptor M Log)) :=
  [(failing "boom", none), (double, none)]

/-- A stand-in for `fmt.Sprintf`, used here only on templates without formatting
verbs and with no arguments, which `Sprintf` returns unchanged. -/
def sprintf0 : String → List String → String :=
  fun template _ => template

/-- The operation handler `H(ctx, m, cfg) = (m + cfg.Prompt, nil)`. -/
def appendPrompt : OperationHandler Unit String String Unit :=
  fun _ m cfg w => ((m ++ cfg.Prompt, none), cfg, w)

/-- An operation handler that fails with "boom" while returning a non-zero message. -/
def partialThenFail : OperationHandler Unit String String Unit :=
  fun _ m cfg w => ((m ++ "-partial", some "boom"), cfg, w)

/-- The step `B` of the examples carrying its own instrumented interceptor `J`,
recorded under the name 7. -/
def stubWithJ : Pipe Unit M String Log :=
  { handler := fun _ => recordH 1 addOne, interceptor := some (recordI 7 quiet) }

/-- An option setting the prompt to "p". -/
def optP : PipeOption :=
  fun c => { c with Prompt := "p" }

/-- An option setting the prompt to "q". -/
def optQ : PipeOption :=
  fun c => { c with Prompt := "q" }

end Example

/-! ## Theorems -/

section StoreLemmas

variable {Msg σ : Type}

/-! ### Lemmas on the store -/

lemma Store.read_append (s t : Store Msg σ) (a : Nat) (h : a < s.length) :
    Store.read (s ++ t) a = Store.read s a := by
  simp [Store.read, List.getElem?_append_left h]

lemma Store.read_append_length (s : Store Msg σ) (v : Option (Interceptor Msg σ))
    (t : Store Msg σ) : Store.read (s ++ v :: t) s.length = v := by
  have h : (s ++ v :: t).get? s.length = some v := by
    rw [List.get?_eq_getElem?, List.getElem?_append_right (le_refl _)]
    simp
  unfold Store.read
  rw [h]
  rfl

lemma Store.read_write_same (s : Store Msg σ) (a : Nat) (v : Option (Interceptor Msg σ))
    (h : a < s.length) : Store.read (Store.write s a v) a = v := by
  simp [Store.read, Store.write, h]

lemma Store.read_write_other (s : Store Msg σ) (a b : Nat)
    (v : Option (Interceptor Msg σ)) (h : a ≠ b) :
    Store.read (Store.write s a v) b = Store.read s b := by
  simp [Store.read, Store.write, List.getElem?_set_ne h]

lemma Store.length_write (s : Store Msg σ) (a : Nat) (v : Option (Interceptor Msg σ)) :
    (Store.write s a v).length = s.length := by
  simp [Store.write]

end StoreLemmas

section PipeTheorems

variable {Ctx Msg Err σ τ : Type} [Inhabited Msg]

/-! ### Lemmas on the handler installed by `Then` -/

lemma Then.handler_ok (p : PipePtr Ctx Msg Err σ) (next : Pipe Ctx Msg Err σ)
    (st : Store Msg σ) (ctx : Ctx) (m a : Msg) (options : List PipeOption) (w w1 : σ)
    (h : p.handler st ctx m [] w = ((a, none), w1)) :
    Pipe.Then.handler p next st ctx m options w
      = next.handler st ctx a [] (callInterceptor (st.read p.addr) a options w1) := by
  simp only [Pipe.Then.handler, h]

lemma Then.handler_err (p : PipePtr Ctx Msg Err σ) (next : Pipe Ctx Msg Err σ)
    (st : Store Msg σ) (ctx : Ctx) (m a : Msg) (e : Err) (options : List PipeOption)
    (w w1 : σ) (h : p.handler st ctx m [] w = ((a, some e), w1)) :
    Pipe.Then.handler p next st ctx m options w = ((default, some e), w1) := by
  simp only [Pipe.Then.handler, h]

lemma Then.handler_junction (p : PipePtr Ctx Msg Err σ) (next : Pipe Ctx Msg Err σ)
    (st : Store Msg σ) (ctx : Ctx) (m : Msg) (w : σ) :
    Pipe.Then.handler p next st ctx m [] w
      = junction (st.read p.addr) st ctx (p.handler st ctx m [] w) next := by
  rcases hr : p.handler st ctx m [] w with ⟨⟨a, e⟩, w1⟩
  cases e with
  | none => rw [Then.handler_ok p next st ctx m a [] w w1 hr]; rfl
  | some e => rw [Then.handler_err p next st ctx m a e [] w w1 hr]; rfl

/-! ### Lemmas on chains -/

lemma thenChain_store (qs : List (Pipe Ctx Msg Err σ)) :
    ∀ (p : PipePtr Ctx Msg Err σ) (s : Store Msg σ), ∃ t, (thenChain p qs s).2 = s ++ t := by
  induction qs with
  | nil => intro p s; exact ⟨[], by simp [thenChain]⟩
  | cons q qs ih =>
    intro p s
    obtain ⟨t, ht⟩ := ih (Pipe.Then p q s).1 (Pipe.Then p q s).2
    refine ⟨[s.read p.addr] ++ t, ?_⟩
    rw [thenChain, ht]
    simp [Pipe.Then, Store.alloc]

lemma thenChain_execute (ctx : Ctx) (m : Msg) (w : σ) (qs : List (Pipe Ctx Msg Err σ)) :
    ∀ (p : PipePtr Ctx Msg Err σ) (s : Store Msg σ), p.addr < s.length →
      Pipe.Execute (thenChain p qs s).1 ctx m (thenChain p qs s).2 w
        = qs.foldl (junction (s.read p.addr) (thenChain p qs s).2 ctx)
            (p.handler (thenChain p qs s).2 ctx m [] w) := by
  induction qs with
  | nil => intro p s _; rfl
  | cons q qs ih =>
    intro p s hv
    have hc : (Pipe.Then p q s).1.addr < (Pipe.Then p q s).2.length := by
      simp [Pipe.Then, Store.alloc]
    have h1 := ih (Pipe.Then p q s).1 (Pipe.Then p q s).2 hc
    obtain ⟨t, ht⟩ := thenChain_store qs (Pipe.Then p q s).1 (Pipe.Then p q s).2
    have hread : Store.read (thenChain (Pipe.Then p q s).1 qs (Pipe.Then p q s).2).2 p.addr
        = s.read p.addr := by
      rw [ht]
      have : (Pipe.Then p q s).2 ++ t = s ++ ([s.read p.addr] ++ t) := by
        simp [Pipe.Then, Store.alloc]
      rw [this, Store.read_append _ _ _ hv]
    have hnew : Store.read (Pipe.Then p q s).2 (Pipe.Then p q s).1.addr = s.read p.addr := by
      simp only [Pipe.Then, Store.alloc]
      exact Store.read_append_length s _ []
    rw [thenChain, h1, hnew, List.foldl_cons]
    have hh : (Pipe.Then p q s).1.handler = Pipe.Then.handler p q := rfl
    rw [hh, Then.handler_junction, hread]

lemma foldl_junction_error (i : Option (Interceptor Msg σ)) (st : Store Msg σ) (ctx : Ctx)
    (e : Err) (w : σ) (qs : List (Pipe Ctx Msg Err σ)) :
    ∀ x : Msg, ∃ y : Msg,
      qs.foldl (junction i st ctx) ((x, some e), w) = ((y, some e), w)
        ∧ (qs ≠ [] → y = default) := by
  induction qs with
  | nil => intro x; exact ⟨x, rfl, fun h => absurd rfl h⟩
  | cons q qs ih =>
    intro x
    obtain ⟨y, hy, hd⟩ := ih default
    by_cases hq : qs = []
    · subst hq
      exact ⟨default, rfl, fun _ => rfl⟩
    · exact ⟨y, hy, fun _ => hd hq⟩

/-- Claim C1. If the handler of `A` succeeds on `(ctx, m)` with output `a`, then
`A.Then(B).Execute(ctx, m)` is exactly the call of the handler of `B` on `(ctx, a)`
with no options, made in the world left by the handler of `A` and, when `A` has an
interceptor at that moment, by that interceptor; so it returns the pair that this
call returns, with or without an interceptor. -/
theorem then_execute_success (A : PipePtr Ctx Msg Err σ) (B : Pipe Ctx Msg Err σ)
    (s st : Store Msg σ) (ctx : Ctx) (m a : Msg) (w w1 : σ)
    (hA : A.handler st ctx m [] w = ((a, none), w1)) :
    Pipe.Execute (Pipe.Then A B s).1 ctx m st w
      = B.handler st ctx a [] (callInterceptor (st.read A.addr) a [] w1) := by
  simp only [Pipe.Execute, Pipe.Then, Pipe.Then.handler, hA]

/-- Witness of C1: `A` doubles, `B` adds one, the input 3 gives 7 and a nil error. -/
theorem then_execute_success_witness :
    (Example.pipeA.handler Example.store2 () (some 3) [] ()
        = (((some 6 : Example.M), (none : Option String)), ()))
    ∧ Pipe.Execute (Pipe.Then Example.pipeA (Example.pipeB.deref Example.store2)
          Example.store2).1 () (some 3)
          (Pipe.Then Example.pipeA (Example.pipeB.deref Example.store2) Example.store2).2 ()
        = (((some 7 : Example.M), (none : Option String)), ()) :=
  ⟨rfl, (then_execute_success Example.pipeA (Example.pipeB.deref Example.store2)
    Example.store2 _ () (some 3) (some 6) () () rfl).trans rfl⟩

/-- Claim C2. If the handler of `A` returns the error `e` on `(ctx, m)`, with any
message, then `A.Then(B).Execute(ctx, m)` returns the nil message with that same
error, and the world is the one the handler of `A` left: whatever `B` and the
interceptor of `A` are, neither of them has run. -/
theorem then_execute_failure (A : PipePtr Ctx Msg Err σ) (B : Pipe Ctx Msg Err σ)
    (s st : Store Msg σ) (ctx : Ctx) (m a : Msg) (e : Err) (w w1 : σ)
    (hA : A.handler st ctx m [] w = ((a, some e), w1)) :
    Pipe.Execute (Pipe.Then A B s).1 ctx m st w = ((default, some e), w1) := by
  simp only [Pipe.Execute, Pipe.Then, Pipe.Then.handler, hA]

/-- Witness of C2 with call-recording stubs: `A` fails with "boom" while returning
a non-nil message, an interceptor is attached to `A`, and the log holds the call of
`A` alone. -/
theorem then_execute_failure_witness :
    ((Example.stubPtr 0 (Example.failing "boom")).handler
        (Pipe.Intercept (Example.stubPtr 0 (Example.failing "boom"))
          (some (recordI 1 Example.quiet)) Example.stubStore).2 () (some 3) [] ([], ())
      = (((some 3 : Example.M), some "boom"), ([Event.handler 0 (some 3) []], ())))
    ∧ Pipe.Execute
        (Pipe.Then (Example.stubPtr 0 (Example.failing "boom")) (Example.stub 2 Example.addOne)
          (Pipe.Intercept (Example.stubPtr 0 (Example.failing "boom"))
            (some (recordI 1 Example.quiet)) Example.stubStore).2).1 () (some 3)
        (Pipe.Intercept (Example.stubPtr 0 (Example.failing "boom"))
          (some (recordI 1 Example.quiet)) Example.stubStore).2 ([], ())
      = (((none : Example.M), some "boom"), ([Event.handler 0 (some 3) []], ())) :=
  ⟨rfl, then_execute_failure _ _ _ _ () (some 3) (some 3) "boom" ([], ()) _ rfl⟩

/-- Claim C3, as amended. Let `I` be attached to `A` before composing and let the
handler of `A` succeed on `(ctx, m)` with output `a`. Then `A.Then(B).Execute(ctx, m)`
is the handler of `A` on `m`, then exactly one call of `I` on `a` (with the options
of `Execute`, that is none), then the handler of `B` on that same `a`. Its result
equals that of the same composition built without the interceptor exactly when the
handler of `B` returns on `a` the same pair in the world `I` left as in the world
the handler of `A` left, that is, when its result does not depend on what `I`
changed. -/
theorem then_interceptor_once (A : PipePtr Ctx Msg Err σ) (B : Pipe Ctx Msg Err σ)
    (I : Interceptor Msg σ) (s : Store Msg σ) (ctx : Ctx) (m a : Msg) (w w1 : σ)
    (hv : A.addr < s.length)
    (hA : A.handler (Pipe.Then A B (Pipe.Intercept A (some I) s).2).2 ctx m [] w
            = ((a, none), w1)) :
    Pipe.Execute (Pipe.Then A B (Pipe.Intercept A (some I) s).2).1 ctx m
        (Pipe.Then A B (Pipe.Intercept A (some I) s).2).2 w
      = B.handler (Pipe.Then A B (Pipe.Intercept A (some I) s).2).2 ctx a [] (I a [] w1)
    ∧ (A.handler (Pipe.Then A B (Pipe.Intercept A none s).2).2 ctx m [] w = ((a, none), w1) →
        ((Pipe.Execute (Pipe.Then A B (Pipe.Intercept A (some I) s).2).1 ctx m
            (Pipe.Then A B (Pipe.Intercept A (some I) s).2).2 w).1
          = (Pipe.Execute (Pipe.Then A B (Pipe.Intercept A none s).2).1 ctx m
              (Pipe.Then A B (Pipe.Intercept A none s).2).2 w).1
        ↔ (B.handler (Pipe.Then A B (Pipe.Intercept A (some I) s).2).2 ctx a []
              (I a [] w1)).1
            = (B.handler (Pipe.Then A B (Pipe.Intercept A none s).2).2 ctx a [] w1).1)) := by
  have hr : ∀ v : Option (Interceptor Msg σ),
      Store.read (Pipe.Then A B (Pipe.Intercept A v s).2).2 A.addr = v := by
    intro v
    have h1 : A.addr < (Store.write s A.addr v).length := by
      rw [Store.length_write]; exact hv
    simp only [Pipe.Then, Pipe.Intercept, Store.alloc]
    rw [Store.read_append _ _ _ h1, Store.read_write_same _ _ _ hv]
  have e1 := Then.handler_ok A B _ ctx m a [] w w1 hA
  rw [hr (some I)] at e1
  refine ⟨e1, ?_⟩
  intro hA0
  have e0 := Then.handler_ok A B _ ctx m a [] w w1 hA0
  rw [hr none] at e0
  have e1x : Pipe.Execute (Pipe.Then A B (Pipe.Intercept A (some I) s).2).1 ctx m
      (Pipe.Then A B (Pipe.Intercept A (some I) s).2).2 w
      = B.handler (Pipe.Then A B (Pipe.Intercept A (some I) s).2).2 ctx a [] (I a [] w1) := e1
  have e0x : Pipe.Execute (Pipe.Then A B (Pipe.Intercept A none s).2).1 ctx m
      (Pipe.Then A B (Pipe.Intercept A none s).2).2 w
      = B.handler (Pipe.Then A B (Pipe.Intercept A none s).2).2 ctx a [] w1 := e0
  rw [e1x, e0x]

/-- Witness of C3 with call-recording stubs: the recorded order is the handler of
`A` on 3, the interceptor on 6, the handler of `B` on 6, and the result is 7; the
handler of `B` returns 7 on 6 whatever the interceptor logged, and the result is that
of the composition built without the interceptor. -/
theorem then_interceptor_once_witness :
    ((0 : Nat) < (Example.stubStore).length)
    ∧ (Pipe.Execute
        (Pipe.Then (Example.stubPtr 0 Example.double) (Example.stub 2 Example.addOne)
          (Pipe.Intercept (Example.stubPtr 0 Example.double)
            (some (recordI 1 Example.quiet)) Example.stubStore).2).1 () (some 3)
        (Pipe.Then (Example.stubPtr 0 Example.double) (Example.stub 2 Example.addOne)
          (Pipe.Intercept (Example.stubPtr 0 Example.double)
            (some (recordI 1 Example.quiet)) Example.stubStore).2).2 ([], ())).1
      = (Pipe.Execute
        (Pipe.Then (Example.stubPtr 0 Example.double) (Example.stub 2 Example.addOne)
          (Pipe.Intercept (Example.stubPtr 0 Example.double) none Example.stubStore).2).1
        () (some 3)
        (Pipe.Then (Example.stubPtr 0 Example.double) (Example.stub 2 Example.addOne)
          (Pipe.Intercept (Example.stubPtr 0 Example.double) none Example.stubStore).2).2
        ([], ())).1
    ∧ Pipe.Execute
        (Pipe.Then (Example.stubPtr 0 Example.double) (Example.stub 2 Example.addOne)
          (Pipe.Intercept (Example.stubPtr 0 Example.double)
            (some (recordI 1 Example.quiet)) Example.stubStore).2).1 () (some 3)
        (Pipe.Then (Example.stubPtr 0 Example.double) (Example.stub 2 Example.addOne)
          (Pipe.Intercept (Example.stubPtr 0 Example.double)
            (some (recordI 1 Example.quiet)) Example.stubStore).2).2 ([], ())
      = (((some 7 : Example.M), (none : Option String)),
          ([Event.handler 0 (some 3) [], Event.interceptor 1 (some 6) [],
            Event.handler 2 (some 6) []], ())) :=
  ⟨by decide,
    ((then_interceptor_once (Example.stubPtr 0 Example.double)
      (Example.stub 2 Example.addOne) (recordI 1 Example.quiet) Example.stubStore ()
      (some 3) (some 6) ([], ()) ([Event.handler 0 (some 3) []], ()) (by decide) rfl).2
      rfl).2 rfl,
    (then_interceptor_once (Example.stubPtr 0 Example.double)
      (Example.stub 2 Example.addOne) (recordI 1 Example.quiet) Example.stubStore ()
      (some 3) (some 6) ([], ()) ([Event.handler 0 (some 3) []], ()) (by decide) rfl).1.trans
      rfl⟩

/-- Counterexample to C3 as stated: the interceptor `tick` changes a counter that
the handler of `B` reads, so the composition with the interceptor returns 1 where the
same composition without it returns 0. -/
theorem then_interceptor_changes_result :
    (Pipe.Execute
        (Pipe.Then Example.countA Example.readB
          (Pipe.Intercept Example.countA (some Example.tick) Example.countStore).2).1
        () (some 3)
        (Pipe.Then Example.countA Example.readB
          (Pipe.Intercept Example.countA (some Example.tick) Example.countStore).2).2 0).1
      = ((some 1 : Example.M), (none : Option String))
    ∧ (Pipe.Execute (Pipe.Then Example.countA Example.readB Example.countStore).1
        () (some 3) (Pipe.Then Example.countA Example.readB Example.countStore).2 0).1
      = ((some 0 : Example.M), (none : Option String))
    ∧ (Pipe.Execute
        (Pipe.Then Example.countA Example.readB
          (Pipe.Intercept Example.countA (some Example.tick) Example.countStore).2).1
        () (some 3)
        (Pipe.Then Example.countA Example.readB
          (Pipe.Intercept Example.countA (some Example.tick) Example.countStore).2).2 0).1
      ≠ (Pipe.Execute (Pipe.Then Example.countA Example.readB Example.countStore).1
        () (some 3) (Pipe.Then Example.countA Example.readB Example.countStore).2 0).1 :=
  ⟨rfl, rfl, by decide⟩

end PipeTheorems

section ChainTheorems

variable {Ctx Msg Err τ : Type} [Inhabited Msg]

/-! ### Instrumented pipelines -/

lemma pipeline_execute (J : Option (Interceptor Msg (List (Event Msg) × τ)))
    (h0 : Handler Ctx Msg Err τ)
    (rest : List (Handler Ctx Msg Err τ × Option (Interceptor Msg (List (Event Msg) × τ))))
    (s : Store Msg (List (Event Msg) × τ)) (ctx : Ctx) (m : Msg) (w : List (Event Msg) × τ) :
    Pipe.Execute (pipeline J h0 rest s).1 ctx m (pipeline J h0 rest s).2 w
      = (stubs 1 rest).foldl (junction J (pipeline J h0 rest s).2 ctx)
          (recordH 0 h0 ctx m [] w) := by
  have hv : (NewPipe (recordH 0 h0) s).1.addr
      < (Pipe.Intercept (NewPipe (recordH 0 h0) s).1 J (NewPipe (recordH 0 h0) s).2).2.length := by
    simp [NewPipe, Pipe.Intercept, Store.alloc, Store.write]
  have hr : Store.read
      (Pipe.Intercept (NewPipe (recordH 0 h0) s).1 J (NewPipe (recordH 0 h0) s).2).2
      (NewPipe (recordH 0 h0) s).1.addr = J := by
    simp only [NewPipe, Pipe.Intercept, Store.alloc]
    exact Store.read_write_same _ _ _ (by simp)
  have h := thenChain_execute ctx m w (stubs 1 rest) (NewPipe (recordH 0 h0) s).1 _ hv
  rw [hr] at h
  exact h

omit [Inhabited Msg] in
lemma Flow.length_eq {ctx : Ctx} {oi : Option (Interceptor Msg τ)}
    {hs : List (Handler Ctx Msg Err τ)} {a : Msg} {t : τ} {outs : List Msg} {t2 : τ}
    (h : Flow ctx oi hs a t outs t2) : outs.length = hs.length := by
  induction h with
  | nil => rfl
  | cons h hs a b t t1 t2 outs _ _ ih => simp [ih]

lemma foldl_stubs_flow (J : Option (Interceptor Msg (List (Event Msg) × τ)))
    (oi : Option (Interceptor Msg τ)) (tag : Option Nat)
    (hJ : ∀ (a : Msg) (log : List (Event Msg)) (t : τ),
      callInterceptor J a [] (log, t) = (log ++ icptCall tag a, callInterceptor oi a [] t))
    (st : Store Msg (List (Event Msg) × τ)) (ctx : Ctx) :
    ∀ (rest : List (Handler Ctx Msg Err τ × Option (Interceptor Msg (List (Event Msg) × τ))))
      (k : Nat) (a : Msg) (t : τ) (outs : List Msg) (t2 : τ) (log : List (Event Msg)),
      Flow ctx oi (rest.map Prod.fst) a t outs t2 →
      (stubs k rest).foldl (junction J st ctx) ((a, none), (log, t))
        = ((outs.getLastD a, none), (log ++ calls tag k a outs, t2)) := by
  intro rest
  induction rest with
  | nil =>
    intro k a t outs t2 log hf
    cases hf
    simp [stubs, calls]
  | cons hj rest ih =>
    intro k a t outs t2 log hf
    cases hf with
    | cons h hs a b t t1 t2 outs hstep hrest =>
      have hj1 : junction J st ctx (((a, none), (log, t)) : Outcome Msg Err × _)
          { handler := fun _ => recordH k hj.1, interceptor := hj.2 }
          = ((b, none), (log ++ icptCall tag a ++ [Event.handler k a []], t1)) := by
        simp only [junction, hJ, recordH, hstep]
      rw [stubs, List.foldl_cons, hj1, ih (k + 1) b t1 outs t2 _ hrest, List.getLastD_cons]
      simp only [calls, List.append_assoc, List.singleton_append]

/-- Claim C4. In the pipeline `P0.Then(P1)...Then(Pn)` of instrumented steps, on an
input `m` on which every handler succeeds (the first returns `a0`, the others return
`outs`), `Execute` returns the output of the last step with a nil error, and the
handler calls recorded are, in this order, `P0` on `m`, `P1` on the output of `P0`,
and so on, each step once on the output of the step before. An interceptor attached
to `P0`, if any, is not instrumented here. -/
theorem chain_runs_in_order (oi : Option (Interceptor Msg τ)) (h0 : Handler Ctx Msg Err τ)
    (rest : List (Handler Ctx Msg Err τ × Option (Interceptor Msg (List (Event Msg) × τ))))
    (s : Store Msg (List (Event Msg) × τ)) (ctx : Ctx) (m a0 : Msg) (outs : List Msg)
    (log : List (Event Msg)) (t t0 t2 : τ)
    (hfirst : h0 ctx m [] t = ((a0, none), t0))
    (hrest : Flow ctx oi (rest.map Prod.fst) a0 t0 outs t2) :
    Pipe.Execute (pipeline (oi.map liftI) h0 rest s).1 ctx m
        (pipeline (oi.map liftI) h0 rest s).2 (log, t)
      = ((outs.getLastD a0, none), (log ++ Event.handler 0 m [] :: calls none 1 a0 outs, t2))
    ∧ handlerNames (Event.handler 0 m [] :: calls none 1 a0 outs)
      = List.range (rest.length + 1) := by
  have hJ : ∀ (a : Msg) (log : List (Event Msg)) (t : τ),
      callInterceptor (oi.map liftI) a [] (log, t)
        = (log ++ icptCall none a, callInterceptor oi a [] t) := by
    intro a log t
    cases oi <;> simp [callInterceptor, liftI, icptCall]
  constructor
  · rw [pipeline_execute]
    have h0r : recordH 0 h0 ctx m [] (log, t)
        = ((a0, none), (log ++ [Event.handler 0 m []], t0)) := by
      simp only [recordH, hfirst]
    rw [h0r, foldl_stubs_flow _ oi none hJ _ ctx rest 1 a0 t0 outs t2 _ hrest]
    simp
  · have hlen := hrest.length_eq
    rw [List.length_map] at hlen
    have key : ∀ (outs : List Msg) (k : Nat) (a : Msg),
        handlerNames (calls none k a outs) = List.range' k outs.length := by
      intro outs
      induction outs with
      | nil => intro k a; rfl
      | cons b outs ih =>
        intro k a
        simp [calls, icptCall, handlerNames, ih, List.range']
    simp only [handlerNames, key, hlen]
    rw [List.range_eq_range', List.range'_succ]

/-- Witness of C4: the three-step chain `A.Then(B).Then(C)` (double, add one, double)
on 3 returns 14 and records the order `[A, B, C]`. -/
theorem chain_runs_in_order_witness :
    ((Example.double : Handler Unit Example.M String Unit) () (some 3) [] ()
        = ((some 6, none), ()))
    ∧ Pipe.Execute (pipeline none Example.double Example.stepsBC []).1 () (some 3)
        (pipeline none Example.double Example.stepsBC []).2 ([], ())
      = (((some 14 : Example.M), (none : Option String)),
          ([Event.handler 0 (some 3) [], Event.handler 1 (some 6) [],
            Event.handler 2 (some 7) []], ()))
    ∧ handlerNames [Event.handler 0 (some 3 : Example.M) [], Event.handler 1 (some 6) [],
        Event.handler 2 (some 7) []] = [0, 1, 2] :=
  ⟨rfl,
    (chain_runs_in_order none Example.double Example.stepsBC [] () (some 3) (some 6)
      [some 7, some 14] [] () () () rfl
      (Flow.cons _ _ _ _ _ _ _ _ rfl (Flow.cons _ _ _ _ _ _ _ _ rfl (Flow.nil _ _)))).1.trans rfl,
    (chain_runs_in_order none Example.double Example.stepsBC [] () (some 3) (some 6)
      [some 7, some 14] [] () () () rfl
      (Flow.cons _ _ _ _ _ _ _ _ rfl (Flow.cons _ _ _ _ _ _ _ _ rfl (Flow.nil _ _)))).2⟩

omit [Inhabited Msg] in
lemma interceptorCount_calls (name : Nat) (outs : List Msg) :
    ∀ (k : Nat) (a : Msg),
      interceptorCount (calls (some name) k a outs) = outs.length := by
  induction outs with
  | nil => intro k a; rfl
  | cons b outs ih =>
    intro k a
    simp [calls, icptCall, interceptorCount, ih (k + 1) b]

/-- Claim C10. In the pipeline `P0.Then(P1)...Then(Pn)` built after the instrumented
interceptor `I` was attached to `P0`, on an input on which every handler succeeds,
one `Execute` records: `P0` on `m`; then, for each following step in order, `I` on
the output of the step before and then that step on the same message. So `I` is
called once per junction, between the two handlers of the junction, which makes as
many calls as there are `Then` (the number of pipes minus one). -/
theorem interceptor_once_per_junction (name : Nat) (i : Interceptor Msg τ)
    (h0 : Handler Ctx Msg Err τ)
    (rest : List (Handler Ctx Msg Err τ × Option (Interceptor Msg (List (Event Msg) × τ))))
    (s : Store Msg (List (Event Msg) × τ)) (ctx : Ctx) (m a0 : Msg) (outs : List Msg)
    (log : List (Event Msg)) (t t0 t2 : τ)
    (hfirst : h0 ctx m [] t = ((a0, none), t0))
    (hrest : Flow ctx (some i) (rest.map Prod.fst) a0 t0 outs t2) :
    Pipe.Execute (pipeline (some (recordI name i)) h0 rest s).1 ctx m
        (pipeline (some (recordI name i)) h0 rest s).2 (log, t)
      = ((outs.getLastD a0, none),
          (log ++ Event.handler 0 m [] :: calls (some name) 1 a0 outs, t2))
    ∧ interceptorCount (Event.handler 0 m [] :: calls (some name) 1 a0 outs) = rest.length := by
  have hJ : ∀ (a : Msg) (log : List (Event Msg)) (t : τ),
      callInterceptor (some (recordI name i)) a [] (log, t)
        = (log ++ icptCall (some name) a, callInterceptor (some i) a [] t) := by
    intro a log t
    rfl
  constructor
  · rw [pipeline_execute]
    have h0r : recordH 0 h0 ctx m [] (log, t)
        = ((a0, none), (log ++ [Event.handler 0 m []], t0)) := by
      simp only [recordH, hfirst]
    rw [h0r, foldl_stubs_flow _ (some i) (some name) hJ _ ctx rest 1 a0 t0 outs t2 _ hrest]
    simp
  · have hlen := hrest.length_eq
    rw [List.length_map] at hlen
    simp [interceptorCount, interceptorCount_calls name outs 1 a0, hlen]

/-- Witness of C10: in `A.Then(B).Then(C)` with `I` attached to `A`, the log of one
`Execute` on 3 is `A(3), I(6), B(6), I(7), C(7)`: two calls of `I` for two junctions. -/
theorem interceptor_once_per_junction_witness :
    ((Example.double : Handler Unit Example.M String Unit) () (some 3) [] ()
        = ((some 6, none), ()))
    ∧ Pipe.Execute
        (pipeline (some (recordI 9 Example.quiet)) Example.double Example.stepsBC []).1 ()
        (some 3)
        (pipeline (some (recordI 9 Example.quiet)) Example.double Example.stepsBC []).2 ([], ())
      = (((some 14 : Example.M), (none : Option String)),
          ([Event.handler 0 (some 3) [], Event.interceptor 9 (some 6) [],
            Event.handler 1 (some 6) [], Event.interceptor 9 (some 7) [],
            Event.handler 2 (some 7) []], ()))
    ∧ interceptorCount [Event.handler 0 (some 3 : Example.M) [],
        Event.interceptor 9 (some 6) [], Event.handler 1 (some 6) [],
        Event.interceptor 9 (some 7) [], Event.handler 2 (some 7) []] = 2 :=
  ⟨rfl,
    (interceptor_once_per_junction 9 Example.quiet Example.double Example.stepsBC [] ()
      (some 3) (some 6) [some 7, some 14] [] () () () rfl
      (Flow.cons _ _ _ _ _ _ _ _ rfl (Flow.cons _ _ _ _ _ _ _ _ rfl (Flow.nil _ _)))).1.trans rfl,
    (interceptor_once_per_junction 9 Example.quiet Example.double Example.stepsBC [] ()
      (some 3) (some 6) [some 7, some 14] [] () () () rfl
      (Flow.cons _ _ _ _ _ _ _ _ rfl (Flow.cons _ _ _ _ _ _ _ _ rfl (Flow.nil _ _)))).2⟩

end ChainTheorems

section OperationTheorems

variable {Ctx Msg Err σ Arg : Type} [Inhabited Msg]

/-- Claim C5, as amended. `Operation.Execute` runs the handler on the configuration
the operation has when `Execute` is called, and returns exactly the handler's
`(message, error)` pair whenever that error is nil or that message is the zero
message. -/
theorem operation_execute_result (p : Operation Ctx Msg Err σ) (ctx : Ctx) (input : Msg)
    (s : ConfigStore Msg) (w w1 : σ) (out : Msg) (e : Option Err) (c : OperationConfig Msg)
    (h : p.handler ctx input (s.read p.config) w = ((out, e), c, w1))
    (hz : e = none ∨ out = default) :
    Operation.Execute p ctx input s w = ((out, e), s.set p.config c, w1) := by
  cases e with
  | none => simp only [Operation.Execute, h]
  | some err =>
    rcases hz with hz | hz
    · cases hz
    · subst hz
      simp only [Operation.Execute, h]

/-- Witness of C5: with `H(ctx, m, cfg) = (m + cfg.Prompt, nil)`, after
`op.SetPrompt("X")` the call `op.Execute(ctx, "in")` returns "inX" and a nil error. -/
theorem operation_execute_result_witness :
    ((NewOperation Example.appendPrompt []).1.handler () "in"
        (ConfigStore.read (Operation.SetPrompt Example.sprintf0
          (NewOperation Example.appendPrompt []).1 "X" []
          (NewOperation Example.appendPrompt []).2).2
          (NewOperation Example.appendPrompt []).1.config) ()
      = (("inX", none), { Prompt := "X", Messages := none }, ()))
    ∧ ((none : Option String) = none ∨ "inX" = (default : String))
    ∧ (Operation.Execute (NewOperation Example.appendPrompt []).1 () "in"
        (Operation.SetPrompt Example.sprintf0 (NewOperation Example.appendPrompt []).1 "X" []
          (NewOperation Example.appendPrompt []).2).2 ()).1
      = ("inX", none) :=
  ⟨rfl, Or.inl rfl,
    congrArg Prod.fst (operation_execute_result (NewOperation Example.appendPrompt []).1 ()
      "in" (Operation.SetPrompt Example.sprintf0 (NewOperation Example.appendPrompt []).1 "X" []
          (NewOperation Example.appendPrompt []).2).2
      () () "inX" none { Prompt := "X", Messages := none } rfl (Or.inl rfl))⟩

/-- Counterexample to C5 as stated: a handler that fails while returning the
message "in-partial" has the result `("in-partial", "boom")`, and `Execute` returns
`("", "boom")`, not that pair. -/
theorem operation_execute_not_handler_result :
    ((NewOperation Example.partialThenFail []).1.handler () "in"
        (ConfigStore.read (NewOperation Example.partialThenFail []).2
          (NewOperation Example.partialThenFail []).1.config) ()).1
      = ("in-partial", some "boom")
    ∧ (Operation.Execute (NewOperation Example.partialThenFail []).1 () "in"
        (NewOperation Example.partialThenFail []).2 ()).1 = ("", some "boom")
    ∧ (Operation.Execute (NewOperation Example.partialThenFail []).1 () "in"
        (NewOperation Example.partialThenFail []).2 ()).1
      ≠ ((NewOperation Example.partialThenFail []).1.handler () "in"
        (ConfigStore.read (NewOperation Example.partialThenFail []).2
          (NewOperation Example.partialThenFail []).1.config) ()).1 :=
  ⟨rfl, rfl, by decide⟩

/-- Claim C6. The error `Operation.Execute` returns is the error the handler
returned, unchanged, so one is non-nil exactly when the other is; and when the
handler returns a non-nil error `e`, with any message, `Execute` returns the
zero-valued message together with `e`. -/
theorem operation_execute_error (p : Operation Ctx Msg Err σ) (ctx : Ctx) (input : Msg)
    (s : ConfigStore Msg) (w : σ) :
    (Operation.Execute p ctx input s w).1.2 = (p.handler ctx input (s.read p.config) w).1.2
    ∧ ((Operation.Execute p ctx input s w).1.2 ≠ none
        ↔ (p.handler ctx input (s.read p.config) w).1.2 ≠ none)
    ∧ ∀ (out : Msg) (e : Err) (c : OperationConfig Msg) (w1 : σ),
        p.handler ctx input (s.read p.config) w = ((out, some e), c, w1) →
        Operation.Execute p ctx input s w = ((default, some e), s.set p.config c, w1) := by
  have h1 : (Operation.Execute p ctx input s w).1.2
      = (p.handler ctx input (s.read p.config) w).1.2 := by
    rcases hr : p.handler ctx input (s.read p.config) w with ⟨⟨out, e⟩, c, w1⟩
    cases e <;> simp only [Operation.Execute, hr]
  refine ⟨h1, by rw [h1], ?_⟩
  intro out e c w1 h
  simp only [Operation.Execute, h]

/-- Witness of C6: the handler returns `("in-partial", "boom")` and `Execute` returns
the empty message with "boom". -/
theorem operation_execute_error_witness :
    ((NewOperation Example.partialThenFail []).1.handler () "in"
        (ConfigStore.read (NewOperation Example.partialThenFail []).2
          (NewOperation Example.partialThenFail []).1.config) ()
      = (("in-partial", some "boom"), { Prompt := "", Messages := none }, ()))
    ∧ (Operation.Execute (NewOperation Example.partialThenFail []).1 () "in"
        (NewOperation Example.partialThenFail []).2 ()).1 = ("", some "boom") :=
  ⟨rfl, congrArg Prod.fst ((operation_execute_error (NewOperation Example.partialThenFail []).1
    () "in" (NewOperation Example.partialThenFail []).2 ()).2.2 "in-partial" "boom"
      { Prompt := "", Messages := none } () rfl)⟩

end OperationTheorems

section ErrorMessageTheorems

variable {Ctx Msg Err σ OMsg OErr ω : Type} [Inhabited Msg] [Inhabited OMsg]

/-- Claim C7, as amended. `Operation.Execute` returns the zero-valued message with
every non-nil error. A pipeline composed with `Then` returns the nil message with
the error when the error arises before the last step. When all steps but the last
succeed, `Execute` returns whatever pair the handler of the last step returns, and
`Execute` on a single pipe returns whatever pair its handler returns. -/
theorem error_message_zero_before_last_step (op : Operation Ctx OMsg OErr ω) (input : OMsg)
    (cs : ConfigStore OMsg) (u : ω) (p : PipePtr Ctx Msg Err σ)
    (qs1 qs2 : List (Pipe Ctx Msg Err σ)) (q : Pipe Ctx Msg Err σ) (s : Store Msg σ)
    (ctx : Ctx) (m : Msg) (w : σ) (hv : p.addr < s.length) :
    ((Operation.Execute op ctx input cs u).1.2 ≠ none →
        (Operation.Execute op ctx input cs u).1.1 = default)
    ∧ (∀ e : Err, qs2 ≠ [] →
        (qs1.foldl (junction (s.read p.addr) (thenChain p (qs1 ++ qs2) s).2 ctx)
          (p.handler (thenChain p (qs1 ++ qs2) s).2 ctx m [] w)).1.2 = some e →
        (Pipe.Execute (thenChain p (qs1 ++ qs2) s).1 ctx m (thenChain p (qs1 ++ qs2) s).2 w).1
          = (default, some e))
    ∧ (∀ (a : Msg) (w1 : σ),
        qs1.foldl (junction (s.read p.addr) (thenChain p (qs1 ++ [q]) s).2 ctx)
          (p.handler (thenChain p (qs1 ++ [q]) s).2 ctx m [] w) = ((a, none), w1) →
        Pipe.Execute (thenChain p (qs1 ++ [q]) s).1 ctx m (thenChain p (qs1 ++ [q]) s).2 w
          = q.handler (thenChain p (qs1 ++ [q]) s).2 ctx a []
              (callInterceptor (s.read p.addr) a [] w1))
    ∧ (∀ st : Store Msg σ, Pipe.Execute p ctx m st w = p.handler st ctx m [] w) := by
  refine ⟨?_, ?_, ?_, fun _ => rfl⟩
  · intro h
    rcases hr : op.handler ctx input (cs.read op.config) u with ⟨⟨out, e⟩, c, u1⟩
    cases e with
    | none => simp [Operation.Execute, hr] at h
    | some err => simp only [Operation.Execute, hr]
  · intro e hne herr
    rw [thenChain_execute ctx m w (qs1 ++ qs2) p s hv, List.foldl_append]
    rcases hr : qs1.foldl (junction (s.read p.addr) (thenChain p (qs1 ++ qs2) s).2 ctx)
        (p.handler (thenChain p (qs1 ++ qs2) s).2 ctx m [] w) with ⟨⟨x, e1⟩, w1⟩
    rw [hr] at herr
    simp only at herr
    subst herr
    obtain ⟨y, hy, hd⟩ := foldl_junction_error (s.read p.addr)
      (thenChain p (qs1 ++ qs2) s).2 ctx e w1 qs2 x
    rw [hy, hd hne]
  · intro a w1 hr
    rw [thenChain_execute ctx m w (qs1 ++ [q]) p s hv, List.foldl_append, hr]
    rfl

/-- Witness of C7: in `A.Then(B)` where `A` fails with "boom" while returning the
message 3, `Execute` returns the nil message with "boom". -/
theorem error_message_zero_before_last_step_witness :
    ((NewPipe (Example.failing "boom" : Handler Unit Example.M String Unit) []).1.addr
        < (NewPipe (Example.failing "boom" : Handler Unit Example.M String Unit) []).2.length)
    ∧ (Pipe.Execute
        (thenChain (NewPipe (Example.failing "boom" : Handler Unit Example.M String Unit) []).1
          ([] ++ [(Example.pipeB.deref Example.store2)])
          (NewPipe (Example.failing "boom" : Handler Unit Example.M String Unit) []).2).1
        () (some 3)
        (thenChain (NewPipe (Example.failing "boom" : Handler Unit Example.M String Unit) []).1
          ([] ++ [(Example.pipeB.deref Example.store2)])
          (NewPipe (Example.failing "boom" : Handler Unit Example.M String Unit) []).2).2 ()).1
      = ((none : Example.M), some "boom") :=
  ⟨by decide,
    (error_message_zero_before_last_step (NewOperation Example.partialThenFail []).1 "in"
      (NewOperation Example.partialThenFail []).2 ()
      (NewPipe (Example.failing "boom" : Handler Unit Example.M String Unit) []).1
      [] [(Example.pipeB.deref Example.store2)] (Example.pipeB.deref Example.store2)
      (NewPipe (Example.failing "boom" : Handler Unit Example.M String Unit) []).2
      () (some 3) () (by decide)).2.1 "boom" (by simp) rfl⟩

/-- Counterexample to C7 as stated: `Execute` on the single pipe whose handler
returns `(3, "boom")` returns the message 3 with the error, and so does
`A.Then(B).Execute` when the failing handler is that of `B`, the last step. -/
theorem last_step_error_keeps_message :
    (Pipe.Execute (NewPipe (Example.failing "boom" : Handler Unit Example.M String Unit) []).1
        () (some 3)
        (NewPipe (Example.failing "boom" : Handler Unit Example.M String Unit) []).2 ()).1
      = ((some 3 : Example.M), some "boom")
    ∧ (Pipe.Execute (NewPipe (Example.failing "boom" : Handler Unit Example.M String Unit) []).1
        () (some 3)
        (NewPipe (Example.failing "boom" : Handler Unit Example.M String Unit) []).2 ()).1.1
      ≠ (default : Example.M)
    ∧ (Pipe.Execute
        (Pipe.Then Example.pipeA
          { handler := fun _ => (Example.failing "boom" : Handler Unit Example.M String Unit),
            interceptor := none } Example.store2).1 () (some 3)
        (Pipe.Then Example.pipeA
          { handler := fun _ => (Example.failing "boom" : Handler Unit Example.M String Unit),
            interceptor := none } Example.store2).2 ()).1
      = ((some 6 : Example.M), some "boom") :=
  ⟨rfl, by decide, rfl⟩

end ErrorMessageTheorems

section OptionTheorems

variable {Ctx Msg Err σ τ : Type} [Inhabited Msg]

omit [Inhabited Msg] in
/-- Claim C8. The handler of `p.WithOptions(opts...)`, called with any options
`opts'`, is the handler of `p` called with exactly `opts`; so is `Execute` on the
returned pipe, which passes no options. For an instrumented `p := NewPipe(h)` the log
gains the single call of `h` with `opts`. The returned pipe carries the interceptor
of `p`, and the store, hence `p` itself, is left unchanged. -/
theorem withOptions_binds_options (p : PipePtr Ctx Msg Err σ) (opts opts' : List PipeOption)
    (s st : Store Msg σ) (ctx : Ctx) (m : Msg) (w : σ)
    (k : Nat) (h : Handler Ctx Msg Err τ) (s' st' : Store Msg (List (Event Msg) × τ))
    (log : List (Event Msg)) (t : τ) :
    (Pipe.WithOptions p opts s).1.handler st ctx m opts' w = p.handler st ctx m opts w
    ∧ Pipe.Execute (Pipe.addressOf (Pipe.WithOptions p opts s).1 (Pipe.WithOptions p opts s).2).1
        ctx m st w = p.handler st ctx m opts w
    ∧ (Pipe.WithOptions (NewPipe (recordH k h) s').1 opts (NewPipe (recordH k h) s').2).1.handler
        st' ctx m opts' (log, t)
      = ((h ctx m opts t).1, (log ++ [Event.handler k m opts], (h ctx m opts t).2))
    ∧ (Pipe.WithOptions p opts s).1.interceptor = s.read p.addr
    ∧ (Pipe.WithOptions p opts s).2 = s :=
  ⟨rfl, rfl, rfl, rfl, rfl⟩

/-- Claim C9. The pipe returned by `A.Then(B)` has as interceptor the interceptor of
`A`, whatever the interceptor of `B` is; in particular it has none when `A` has
none. In that case, on an input on which the handlers of `A` and `B` succeed,
`A.Then(B).Then(C).Execute` is the handler of `A`, then the handler of `B`, then the
handler of `C` run in the world the handler of `B` left: no interceptor, and so not
the one of `B`, has run in between. -/
theorem then_keeps_first_interceptor (A : PipePtr Ctx Msg Err σ) (B C : Pipe Ctx Msg Err σ)
    (s : Store Msg σ) (ctx : Ctx) (m : Msg) (w : σ) (hv : A.addr < s.length) :
    Store.read (Pipe.Then A B s).2 (Pipe.Then A B s).1.addr = s.read A.addr
    ∧ (s.read A.addr = none →
        Store.read (Pipe.Then A B s).2 (Pipe.Then A B s).1.addr = none)
    ∧ (s.read A.addr = none → ∀ (a b : Msg) (w1 w2 : σ),
        A.handler (Pipe.Then (Pipe.Then A B s).1 C (Pipe.Then A B s).2).2 ctx m [] w
          = ((a, none), w1) →
        B.handler (Pipe.Then (Pipe.Then A B s).1 C (Pipe.Then A B s).2).2 ctx a [] w1
          = ((b, none), w2) →
        Pipe.Execute (Pipe.Then (Pipe.Then A B s).1 C (Pipe.Then A B s).2).1 ctx m
            (Pipe.Then (Pipe.Then A B s).1 C (Pipe.Then A B s).2).2 w
          = C.handler (Pipe.Then (Pipe.Then A B s).1 C (Pipe.Then A B s).2).2 ctx b [] w2) := by
  have h1 : Store.read (Pipe.Then A B s).2 (Pipe.Then A B s).1.addr = s.read A.addr := by
    simp only [Pipe.Then, Store.alloc]
    exact Store.read_append_length s _ []
  refine ⟨h1, fun h => h1.trans h, ?_⟩
  intro hnone a b w1 w2 hA hB
  have hx := thenChain_execute ctx m w [B, C] A s hv
  rw [hnone] at hx
  simp only [thenChain, List.foldl_cons, List.foldl_nil] at hx
  rw [hx, hA]
  simp only [junction, callInterceptor, hB]

/-- Witness of C9: `B` carries the instrumented interceptor `J` (name 7) and `A` has
none; one `Execute` of `A.Then(B).Then(C)` on 3 records the three handler calls and
no call of `J`. -/
theorem then_keeps_first_interceptor_witness :
    ((Example.stubPtr 0 Example.double).addr < Example.stubStore.length)
    ∧ Pipe.Execute
        (Pipe.Then
          (Pipe.Then (Example.stubPtr 0 Example.double) Example.stubWithJ Example.stubStore).1
          (Example.stub 2 Example.double)
          (Pipe.Then (Example.stubPtr 0 Example.double) Example.stubWithJ Example.stubStore).2).1
        () (some 3)
        (Pipe.Then
          (Pipe.Then (Example.stubPtr 0 Example.double) Example.stubWithJ Example.stubStore).1
          (Example.stub 2 Example.double)
          (Pipe.Then (Example.stubPtr 0 Example.double) Example.stubWithJ Example.stubStore).2).2
        ([], ())
      = (((some 14 : Example.M), (none : Option String)),
          ([Event.handler 0 (some 3) [], Event.handler 1 (some 6) [],
            Event.handler 2 (some 7) []], ())) :=
  ⟨by decide,
    ((then_keeps_first_interceptor (Example.stubPtr 0 Example.double) Example.stubWithJ
      (Example.stub 2 Example.double) Example.stubStore () (some 3) ([], ())
      (by decide)).2.2 rfl (some 6) (some 7) ([Event.handler 0 (some 3) []], ())
      ([Event.handler 0 (some 3) [], Event.handler 1 (some 6) []], ()) rfl rfl).trans rfl⟩

end OptionTheorems

section ChainErrorTheorems

variable {Ctx Msg Err τ : Type} [Inhabited Msg]

omit [Inhabited Msg] in
lemma stubs_append
    (pre post : List (Handler Ctx Msg Err τ × Option (Interceptor Msg (List (Event Msg) × τ)))) :
    ∀ k : Nat, stubs k (pre ++ post) = stubs k pre ++ stubs (k + pre.length) post := by
  induction pre with
  | nil => intro k; simp [stubs]
  | cons hj pre ih =>
    intro k
    have hk : k + 1 + pre.length = k + (pre.length + 1) := by omega
    rw [List.cons_append, stubs, stubs, ih (k + 1), List.length_cons, List.cons_append, hk]

omit [Inhabited Msg] in
lemma calls_snoc (tag : Option Nat) (x : Msg) (outs : List Msg) :
    ∀ (k : Nat) (a : Msg),
      calls tag k a (outs ++ [x])
        = calls tag k a outs
            ++ (icptCall tag (outs.getLastD a)
              ++ [Event.handler (k + outs.length) (outs.getLastD a) []]) := by
  induction outs with
  | nil => intro k a; simp [calls]
  | cons b outs ih =>
    intro k a
    have hk : k + 1 + outs.length = k + (outs.length + 1) := by omega
    rw [List.cons_append, calls, calls, ih (k + 1) b, List.getLastD_cons, List.length_cons,
      hk]
    simp only [List.append_assoc, List.cons_append]

/-- Claim C14. In the instrumented pipeline `P0.Then(P1)...Then(Pn)`, with or without
an instrumented interceptor attached to `P0`: if the handler of `P0` returns the error
`e`, or if the steps before some later step all succeed and the handler of that step
returns the error `e`, then `Execute` returns exactly `e`, and the log ends with the
call of the failing handler: no later handler is called, and no interceptor is called
once the failing handler has returned. -/
theorem chain_error_aborts (name : Nat) (oi : Option (Interceptor Msg τ))
    (h0 : Handler Ctx Msg Err τ)
    (rest : List (Handler Ctx Msg Err τ × Option (Interceptor Msg (List (Event Msg) × τ))))
    (s : Store Msg (List (Event Msg) × τ)) (ctx : Ctx) (m : Msg) (log : List (Event Msg))
    (t : τ) :
    (∀ (x : Msg) (e : Err) (t0 : τ), h0 ctx m [] t = ((x, some e), t0) →
      (Pipe.Execute (pipeline (oi.map (recordI name)) h0 rest s).1 ctx m
          (pipeline (oi.map (recordI name)) h0 rest s).2 (log, t)).1.2 = some e
      ∧ (Pipe.Execute (pipeline (oi.map (recordI name)) h0 rest s).1 ctx m
          (pipeline (oi.map (recordI name)) h0 rest s).2 (log, t)).2
        = (log ++ [Event.handler 0 m []], t0))
    ∧ (∀ (pre : List (Handler Ctx Msg Err τ × Option (Interceptor Msg (List (Event Msg) × τ))))
        (hk : Handler Ctx Msg Err τ × Option (Interceptor Msg (List (Event Msg) × τ)))
        (post : List (Handler Ctx Msg Err τ × Option (Interceptor Msg (List (Event Msg) × τ))))
        (a0 x : Msg) (outs : List Msg) (e : Err) (t0 t2 t3 : τ),
      rest = pre ++ hk :: post →
      h0 ctx m [] t = ((a0, none), t0) →
      Flow ctx oi (pre.map Prod.fst) a0 t0 outs t2 →
      hk.1 ctx (outs.getLastD a0) [] (callInterceptor oi (outs.getLastD a0) [] t2)
        = ((x, some e), t3) →
      (Pipe.Execute (pipeline (oi.map (recordI name)) h0 rest s).1 ctx m
          (pipeline (oi.map (recordI name)) h0 rest s).2 (log, t)).1.2 = some e
      ∧ (Pipe.Execute (pipeline (oi.map (recordI name)) h0 rest s).1 ctx m
          (pipeline (oi.map (recordI name)) h0 rest s).2 (log, t)).2
        = (log ++ Event.handler 0 m [] :: calls (oi.map (fun _ => name)) 1 a0 (outs ++ [x]),
            t3)) := by
  have hJ : ∀ (a : Msg) (log : List (Event Msg)) (t : τ),
      callInterceptor (oi.map (recordI name)) a [] (log, t)
        = (log ++ icptCall (oi.map (fun _ => name)) a, callInterceptor oi a [] t) := by
    intro a log t
    cases oi <;> simp [callInterceptor, recordI, icptCall]
  constructor
  · intro x e t0 hfirst
    rw [pipeline_execute]
    have h0r : recordH 0 h0 ctx m [] (log, t)
        = ((x, some e), (log ++ [Event.handler 0 m []], t0)) := by
      simp only [recordH, hfirst]
    rw [h0r]
    obtain ⟨y, hy, _⟩ := foldl_junction_error (oi.map (recordI name))
      (pipeline (oi.map (recordI name)) h0 rest s).2 ctx e
      (log ++ [Event.handler 0 m []], t0) (stubs 1 rest) x
    rw [hy]
    exact ⟨rfl, rfl⟩
  · intro pre hk post a0 x outs e t0 t2 t3 hsplit hfirst hpre hfail
    rw [pipeline_execute]
    have h0r : recordH 0 h0 ctx m [] (log, t)
        = ((a0, none), (log ++ [Event.handler 0 m []], t0)) := by
      simp only [recordH, hfirst]
    have hlen := hpre.length_eq
    rw [List.length_map] at hlen
    rw [h0r, hsplit, stubs_append, List.foldl_append,
      foldl_stubs_flow _ oi (oi.map (fun _ => name)) hJ _ ctx pre 1 a0 t0 outs t2 _ hpre,
      stubs, List.foldl_cons]
    have hj1 : junction (oi.map (recordI name)) (pipeline (oi.map (recordI name)) h0
          (pre ++ hk :: post) s).2 ctx
          (((outs.getLastD a0, none),
            (log ++ [Event.handler 0 m []] ++ calls (oi.map (fun _ => name)) 1 a0 outs, t2)) :
            Outcome Msg Err × _)
          { handler := fun _ => recordH (1 + pre.length) hk.1, interceptor := hk.2 }
        = ((x, some e),
            (log ++ [Event.handler 0 m []] ++ calls (oi.map (fun _ => name)) 1 a0 outs
              ++ icptCall (oi.map (fun _ => name)) (outs.getLastD a0)
              ++ [Event.handler (1 + pre.length) (outs.getLastD a0) []], t3)) := by
      simp only [junction, hJ, recordH, hfail]
    rw [hj1]
    obtain ⟨y, hy, _⟩ := foldl_junction_error (oi.map (recordI name))
      (pipeline (oi.map (recordI name)) h0 (pre ++ hk :: post) s).2 ctx e
      (log ++ [Event.handler 0 m []] ++ calls (oi.map (fun _ => name)) 1 a0 outs
        ++ icptCall (oi.map (fun _ => name)) (outs.getLastD a0)
        ++ [Event.handler (1 + pre.length) (outs.getLastD a0) []], t3)
      (stubs (1 + pre.length + 1) post) x
    rw [hy]
    refine ⟨rfl, ?_⟩
    simp only [calls_snoc, hlen, List.append_assoc, List.singleton_append, List.cons_append,
      List.nil_append]

/-- Witness of C14: in `A.Then(B).Then(C)` with an instrumented interceptor on `A`,
where `B` fails with "boom", `Execute` on 3 returns "boom" and the log is
`A(3), I(6), B(6)`: `C` is not called and nothing is called after `B`. -/
theorem chain_error_aborts_witness :
    (Example.stepsFailC = [] ++ (Example.failing "boom", none) :: [(Example.double, none)])
    ∧ (Pipe.Execute
        (pipeline ((some Example.quiet).map (recordI 9)) Example.double Example.stepsFailC []).1
        () (some 3)
        (pipeline ((some Example.quiet).map (recordI 9)) Example.double Example.stepsFailC []).2
        ([], ())).1.2 = some "boom"
    ∧ (Pipe.Execute
        (pipeline ((some Example.quiet).map (recordI 9)) Example.double Example.stepsFailC []).1
        () (some 3)
        (pipeline ((some Example.quiet).map (recordI 9)) Example.double Example.stepsFailC []).2
        ([], ())).2
      = ([Event.handler 0 (some 3) [], Event.interceptor 9 (some 6) [],
          Event.handler 1 (some 6) []], ()) :=
  ⟨rfl,
    ((chain_error_aborts 9 (some Example.quiet) Example.double Example.stepsFailC [] ()
      (some 3) [] ()).2 [] (Example.failing "boom", none) [(Example.double, none)]
      (some 6) (some 6) [] "boom" () () () rfl rfl (Flow.nil _ _) rfl).1,
    ((chain_error_aborts 9 (some Example.quiet) Example.double Example.stepsFailC [] ()
      (some 3) [] ()).2 [] (Example.failing "boom", none) [(Example.double, none)]
      (some 6) (some 6) [] "boom" () () () rfl rfl (Flow.nil _ _) rfl).2.trans rfl⟩

end ChainErrorTheorems

section ConfigTheorems

variable {Ctx Msg Err σ Arg : Type}

lemma NewPipeConfig.loop_eq_foldl (options : List PipeOption) :
    ∀ c : PipeConfig, NewPipeConfig.loop options c = options.foldl (fun c o => o c) c := by
  induction options with
  | nil => intro c; rfl
  | cons o options ih => intro c; simp only [NewPipeConfig.loop, List.foldl_cons, ih]

/-- Claim C13. `NewPipeConfig(opts...)` is the left fold of the options, applied in
the given order, over the zero-valued configuration, so `NewPipeConfig()` has the
empty prompt; and when the last option is `WithPrompt(t, args...)` the resulting
prompt is the formatting of `t` with `args`, whatever the earlier options wrote. -/
theorem newPipeConfig_fold_last_wins (sprintf : String → List Arg → String)
    (opts : List PipeOption) (t : String) (args : List Arg) :
    NewPipeConfig opts = opts.foldl (fun c o => o c) { Prompt := "" }
    ∧ (NewPipeConfig []).Prompt = ""
    ∧ (NewPipeConfig (opts ++ [WithPrompt sprintf t args])).Prompt = sprintf t args := by
  refine ⟨NewPipeConfig.loop_eq_foldl opts _, rfl, ?_⟩
  unfold NewPipeConfig
  rw [NewPipeConfig.loop_eq_foldl, List.foldl_append]
  rfl

lemma getLast?_getD_cons {α : Type} (x d : α) (xs : List α) :
    ((x :: xs).getLast?).getD d = (xs.getLast?).getD x := by
  cases xs with
  | nil => simp
  | cons y ys =>
    rw [List.getLast?_cons_cons, List.getLast?_eq_getLast _ (List.cons_ne_nil y ys)]
    simp

lemma ConfigStore.read_set (s : ConfigStore Msg) (a : Nat) (c : OperationConfig Msg)
    (h : a < s.length) : ConfigStore.read (s.set a c) a = c := by
  simp [ConfigStore.read, List.getD_eq_getElem?_getD, h]

lemma runSetters_spec (sprintf : String → List Arg → String) (p : Operation Ctx Msg Err σ)
    (calls : List (SetterCall Msg Arg)) :
    ∀ s : ConfigStore Msg, p.config < s.length →
      (runSetters sprintf p calls s).1 = p
      ∧ p.config < (runSetters sprintf p calls s).2.length
      ∧ ((runSetters sprintf p calls s).2.read p.config).Prompt
          = ((promptsWritten sprintf calls).getLast?).getD (s.read p.config).Prompt
      ∧ ((runSetters sprintf p calls s).2.read p.config).Messages
          = ((messagesWritten calls).getLast?).getD (s.read p.config).Messages := by
  induction calls with
  | nil => intro s h; exact ⟨rfl, h, rfl, rfl⟩
  | cons c cs ih =>
    intro s h
    cases c with
    | setPrompt prompt args =>
      have h1 : p.config
          < (Operation.SetPrompt sprintf p prompt args s).2.length := by
        simp [Operation.SetPrompt, h]
      obtain ⟨e1, e2, e3, e4⟩ := ih (Operation.SetPrompt sprintf p prompt args s).2 h1
      have hr : ConfigStore.read (Operation.SetPrompt sprintf p prompt args s).2 p.config
          = { s.read p.config with Prompt := sprintf prompt args } :=
        ConfigStore.read_set s _ _ h
      refine ⟨e1, e2, ?_, ?_⟩
      · show (ConfigStore.read
            (runSetters sprintf p cs (Operation.SetPrompt sprintf p prompt args s).2).2
            p.config).Prompt = _
        rw [e3, hr]
        simp only [promptsWritten]
        rw [getLast?_getD_cons]
      · show (ConfigStore.read
            (runSetters sprintf p cs (Operation.SetPrompt sprintf p prompt args s).2).2
            p.config).Messages = _
        rw [e4, hr]
        simp only [messagesWritten]
    | setMessages msgs =>
      have h1 : p.config < (Operation.SetMessages p msgs s).2.length := by
        simp [Operation.SetMessages, h]
      obtain ⟨e1, e2, e3, e4⟩ := ih (Operation.SetMessages p msgs s).2 h1
      have hr : ConfigStore.read (Operation.SetMessages p msgs s).2 p.config
          = { s.read p.config with Messages := msgs } :=
        ConfigStore.read_set s _ _ h
      refine ⟨e1, e2, ?_, ?_⟩
      · show (ConfigStore.read
            (runSetters sprintf p cs (Operation.SetMessages p msgs s).2).2
            p.config).Prompt = _
        rw [e3, hr]
        simp only [promptsWritten]
      · show (ConfigStore.read
            (runSetters sprintf p cs (Operation.SetMessages p msgs s).2).2
            p.config).Messages = _
        rw [e4, hr]
        simp only [messagesWritten]
        rw [getLast?_getD_cons]

/-- Claim C12. Let `op := NewOperation(h)` and let any finite sequence of `SetPrompt`
and `SetMessages` calls be applied to it. Each single call returns the operation it was
called on, and so does the whole sequence. Afterwards `op.Config().Prompt` is the
formatting written by the last `SetPrompt` call, the empty string if there was none,
and `op.Config().Messages` is the argument of the last `SetMessages` call, nil if
there was none: calls overwrite, and a setter leaves the other field as it was. -/
theorem setters_last_write_wins (sprintf : String → List Arg → String)
    (h : OperationHandler Ctx Msg Err σ) (s : ConfigStore Msg)
    (calls : List (SetterCall Msg Arg)) (c : SetterCall Msg Arg) (s0 : ConfigStore Msg) :
    (c.run sprintf (NewOperation h s).1 s0).1 = (NewOperation h s).1
    ∧ (runSetters sprintf (NewOperation h s).1 calls (NewOperation h s).2).1
        = (NewOperation h s).1
    ∧ (ConfigStore.read (runSetters sprintf (NewOperation h s).1 calls (NewOperation h s).2).2
          (NewOperation h s).1.Config).Prompt
        = ((promptsWritten sprintf calls).getLast?).getD ""
    ∧ (ConfigStore.read (runSetters sprintf (NewOperation h s).1 calls (NewOperation h s).2).2
          (NewOperation h s).1.Config).Messages
        = ((messagesWritten calls).getLast?).getD none := by
  have hv : (NewOperation h s).1.config < (NewOperation h s).2.length := by
    simp [NewOperation]
  have hz : ConfigStore.read (NewOperation h s).2 (NewOperation h s).1.config
      = { Prompt := "", Messages := none } := by
    simp [NewOperation, ConfigStore.read, List.getD_eq_getElem?_getD]
  obtain ⟨e1, _, e3, e4⟩ := runSetters_spec sprintf (NewOperation h s).1 calls
    (NewOperation h s).2 hv
  rw [hz] at e3 e4
  refine ⟨?_, e1, e3, e4⟩
  cases c <;> rfl

end ConfigTheorems

section StandaloneTheorems

variable {Ctx Msg Err σ : Type} [Inhabited Msg]

omit [Inhabited Msg] in
lemma ReadsBelow.mono {n k : Nat} {h : Closure Ctx Msg Err σ} (hr : ReadsBelow n h)
    (hnk : n ≤ k) : ReadsBelow k h :=
  fun st st0 hag => hr st st0 (fun a ha => hag a (lt_of_lt_of_le ha hnk))

omit [Inhabited Msg] in
lemma ReadsBelow.newPipe (h : Handler Ctx Msg Err σ) (s : Store Msg σ) :
    ReadsBelow (NewPipe h s).1.addr (NewPipe h s).1.handler :=
  fun _ _ _ => rfl

lemma ReadsBelow.then_handler (p : PipePtr Ctx Msg Err σ) (next : Pipe Ctx Msg Err σ)
    (s : Store Msg σ) (hv : p.addr < s.length) (hp : ReadsBelow p.addr p.handler)
    (hn : ReadsBelow s.length next.handler) :
    ReadsBelow (Pipe.Then p next s).1.addr (Pipe.Then p next s).1.handler := by
  intro st st0 hag
  have hlen : (Pipe.Then p next s).1.addr = s.length := rfl
  rw [hlen] at hag
  have h1 : p.handler st = p.handler st0 :=
    hp st st0 (fun a ha => hag a (lt_trans ha hv))
  have h2 : next.handler st = next.handler st0 := hn st st0 hag
  have h3 : st.read p.addr = st0.read p.addr := hag p.addr hv
  funext ctx input options w
  show Pipe.Then.handler p next st ctx input options w
    = Pipe.Then.handler p next st0 ctx input options w
  simp only [Pipe.Then.handler, h1, h2, h3]

/-- Claim C11. A pipe executed standalone does not fire its own interceptor. For a
pipe `p` whose handler closure captured only pipes allocated before `p` itself, which
is what `NewPipe`, `Then` and `WithOptions` build, `p.Intercept(I).Execute(ctx, m)`
returns the same result and leaves the same world as `p.Execute(ctx, m)` did before
`I` was attached. In particular `NewPipe(h).Intercept(I).Execute(ctx, m)` is
`h(ctx, m)` with no options: `I` has not run. -/
theorem standalone_never_fires_own_interceptor (p : PipePtr Ctx Msg Err σ)
    (I : Interceptor Msg σ) (s : Store Msg σ) (ctx : Ctx) (m : Msg) (w : σ)
    (h : Handler Ctx Msg Err σ) (next : Pipe Ctx Msg Err σ) (opts : List PipeOption)
    (hp : ReadsBelow p.addr p.handler) :
    Pipe.Execute (Pipe.Intercept p (some I) s).1 ctx m (Pipe.Intercept p (some I) s).2 w
      = Pipe.Execute p ctx m s w
    ∧ Pipe.Execute (Pipe.Intercept (NewPipe h s).1 (some I) (NewPipe h s).2).1 ctx m
        (Pipe.Intercept (NewPipe h s).1 (some I) (NewPipe h s).2).2 w = h ctx m [] w
    ∧ ReadsBelow (NewPipe h s).1.addr (NewPipe h s).1.handler
    ∧ (p.addr < s.length → ReadsBelow s.length next.handler →
        ReadsBelow (Pipe.Then p next s).1.addr (Pipe.Then p next s).1.handler)
    ∧ (p.addr < s.length →
        ReadsBelow s.length (Pipe.WithOptions p opts s).1.handler
        ∧ ReadsBelow s.length (p.deref s).handler
        ∧ ReadsBelow
            (Pipe.addressOf (Pipe.WithOptions p opts s).1 (Pipe.WithOptions p opts s).2).1.addr
            (Pipe.addressOf (Pipe.WithOptions p opts s).1
              (Pipe.WithOptions p opts s).2).1.handler) := by
  refine ⟨?_, rfl, ReadsBelow.newPipe h s,
    fun hv hn => ReadsBelow.then_handler p next s hv hp hn, ?_⟩
  · have hh : p.handler (Pipe.Intercept p (some I) s).2 = p.handler s := by
      apply hp
      intro a ha
      exact Store.read_write_other s p.addr a _ (Nat.ne_of_gt ha)
    show p.handler (Pipe.Intercept p (some I) s).2 ctx m [] w = p.handler s ctx m [] w
    rw [hh]
  · intro hv
    have hw : ReadsBelow s.length (Pipe.WithOptions p opts s).1.handler := by
      intro st st0 hag
      have h1 : p.handler st = p.handler st0 :=
        hp st st0 (fun a ha => hag a (lt_trans ha hv))
      funext ctx msg o w
      show p.handler st ctx msg opts w = p.handler st0 ctx msg opts w
      rw [h1]
    exact ⟨hw, hp.mono (le_of_lt hv), hw⟩

/-- Witness of C11: the instrumented interceptor named 7 is attached to the composed
pipe `A.Then(B)`; `Execute` on 3 returns 7 and records the two handler calls only. -/
theorem standalone_never_fires_own_interceptor_witness :
    ReadsBelow
        (Pipe.Then (Example.stubPtr 0 Example.double) (Example.stub 1 Example.addOne)
          Example.stubStore).1.addr
        (Pipe.Then (Example.stubPtr 0 Example.double) (Example.stub 1 Example.addOne)
          Example.stubStore).1.handler
    ∧ Pipe.Execute
        (Pipe.Intercept
          (Pipe.Then (Example.stubPtr 0 Example.double) (Example.stub 1 Example.addOne)
            Example.stubStore).1 (some (recordI 7 Example.quiet))
          (Pipe.Then (Example.stubPtr 0 Example.double) (Example.stub 1 Example.addOne)
            Example.stubStore).2).1 () (some 3)
        (Pipe.Intercept
          (Pipe.Then (Example.stubPtr 0 Example.double) (Example.stub 1 Example.addOne)
            Example.stubStore).1 (some (recordI 7 Example.quiet))
          (Pipe.Then (Example.stubPtr 0 Example.double) (Example.stub 1 Example.addOne)
            Example.stubStore).2).2 ([], ())
      = (((some 7 : Example.M), (none : Option String)),
          ([Event.handler 0 (some 3) [], Event.handler 1 (some 6) []], ())) :=
  ⟨ReadsBelow.then_handler _ _ _ (by decide) (ReadsBelow.newPipe _ _) (fun _ _ _ => rfl),
    (standalone_never_fires_own_interceptor
      (Pipe.Then (Example.stubPtr 0 Example.double) (Example.stub 1 Example.addOne)
        Example.stubStore).1 (recordI 7 Example.quiet)
      (Pipe.Then (Example.stubPtr 0 Example.double) (Example.stub 1 Example.addOne)
        Example.stubStore).2 () (some 3) ([], ()) Example.double
      (Example.stub 1 Example.addOne) []
      (ReadsBelow.then_handler _ _ _ (by decide) (ReadsBelow.newPipe _ _)
        (fun _ _ _ => rfl))).1.trans rfl⟩

end StandaloneTheorems

section LateBindingTheorems

variable {Ctx Msg Err σ τ : Type} [Inhabited Msg]

omit [Inhabited Msg] in
lemma composed_reads (I0 : Option (Interceptor Msg σ))
    (s : Store Msg σ) (v : Option (Interceptor Msg σ)) :
    Store.read (s ++ [none]) s.length = none
    ∧ Store.read (Store.write (s ++ [none]) s.length I0 ++ [none]
        ++ [Store.read (Store.write (s ++ [none]) s.length I0 ++ [none]) s.length]) s.length = I0
    ∧ Store.read (Store.write (Store.write (s ++ [none]) s.length I0 ++ [none]
        ++ [Store.read (Store.write (s ++ [none]) s.length I0 ++ [none]) s.length])
          s.length v) s.length = v
    ∧ Store.read (Store.write (Store.write (s ++ [none]) s.length I0 ++ [none]
        ++ [Store.read (Store.write (s ++ [none]) s.length I0 ++ [none]) s.length])
          (Store.write (s ++ [none]) s.length I0).length v) s.length = I0 := by
  have hl : s.length < (s ++ [none] : Store Msg σ).length := by simp
  have hw : s.length < (Store.write (s ++ [none]) s.length I0).length := by
    rw [Store.length_write]; exact hl
  have hw1 : s.length < (Store.write (s ++ [none]) s.length I0 ++ [none]).length := by
    rw [List.length_append]; omega
  have hw2 : s.length < (Store.write (s ++ [none]) s.length I0 ++ [none]
      ++ [Store.read (Store.write (s ++ [none]) s.length I0 ++ [none]) s.length]).length := by
    rw [List.length_append]; omega
  have e1 : Store.read (Store.write (s ++ [none]) s.length I0 ++ [none]
      ++ [Store.read (Store.write (s ++ [none]) s.length I0 ++ [none]) s.length]) s.length
      = I0 := by
    rw [Store.read_append _ _ _ hw1, Store.read_append _ _ _ hw,
      Store.read_write_same _ _ _ hl]
  refine ⟨Store.read_append_length s none [], e1, Store.read_write_same _ _ _ hw2, ?_⟩
  rw [Store.read_write_other _ _ _ _ (Nat.ne_of_gt hw), e1]

/-- Claim C15, as amended. Let `c := A.Then(B)` for `A := NewPipe(hA)` (with or
without an interceptor attached before composing) and `B := NewPipe(hB)`. Calling
`B.Intercept(J)` afterwards does not change what `c.Execute` does. Calling
`A.Intercept(J)` afterwards does: the handler of `c` reads the interceptor of `A` when
it runs, so on an input on which the handler of `A` succeeds with output `a`,
`c.Execute` calls `J` on `a` between the two handlers, in place of the interceptor `A`
had when `c` was built; the handlers called and the messages they receive are the
same, and nothing changes when the handler of `A` fails. -/
theorem later_intercept_rebinds_first_operand (hA hB : Handler Ctx Msg Err σ)
    (I0 : Option (Interceptor Msg σ)) (J : Interceptor Msg σ) (s : Store Msg σ)
    (ctx : Ctx) (m : Msg) (w : σ) :
    Pipe.Execute (composed hA hB I0 s).1 ctx m
        (Pipe.Intercept (operandB hA hB I0 s) (some J) (composed hA hB I0 s).2).2 w
      = Pipe.Execute (composed hA hB I0 s).1 ctx m (composed hA hB I0 s).2 w
    ∧ (∀ (a : Msg) (w1 : σ), hA ctx m [] w = ((a, none), w1) →
        Pipe.Execute (composed hA hB I0 s).1 ctx m (composed hA hB I0 s).2 w
          = hB ctx a [] (callInterceptor I0 a [] w1)
        ∧ Pipe.Execute (composed hA hB I0 s).1 ctx m
            (Pipe.Intercept (operandA hA s) (some J) (composed hA hB I0 s).2).2 w
          = hB ctx a [] (J a [] w1))
    ∧ (∀ (x : Msg) (e : Err) (w1 : σ), hA ctx m [] w = ((x, some e), w1) →
        Pipe.Execute (composed hA hB I0 s).1 ctx m
            (Pipe.Intercept (operandA hA s) (some J) (composed hA hB I0 s).2).2 w
          = Pipe.Execute (composed hA hB I0 s).1 ctx m (composed hA hB I0 s).2 w) := by
  obtain ⟨_, r1, r2, r3⟩ := composed_reads I0 s (some J)
  have hexec : ∀ st : Store Msg σ,
      Pipe.Execute (composed hA hB I0 s).1 ctx m st w
        = junction (st.read s.length) [] ctx (hA ctx m [] w)
            { handler := fun _ => hB, interceptor := none } := by
    intro st
    rcases hr : hA ctx m [] w with ⟨⟨a, e⟩, w1⟩
    cases e <;>
      simp [Pipe.Execute, composed, operandA, operandB, Pipe.Then, Pipe.Then.handler, NewPipe,
        PipePtr.deref, Store.alloc, junction, hr]
  have hc : (composed hA hB I0 s).2
      = Store.write (s ++ [none]) s.length I0 ++ [none]
        ++ [Store.read (Store.write (s ++ [none]) s.length I0 ++ [none]) s.length] := rfl
  have hb : (operandB hA hB I0 s).addr = (Store.write (s ++ [none]) s.length I0).length := rfl
  have ha : (operandA hA s).addr = s.length := rfl
  refine ⟨?_, ?_, ?_⟩
  · rw [hexec, hexec]
    simp only [Pipe.Intercept, hb, ha, hc, r1, r3]
  · intro a w1 h
    rw [hexec, hexec]
    simp only [Pipe.Intercept, ha, hc, r1, r2, h, junction, callInterceptor]
    exact ⟨trivial, trivial⟩
  · intro x e w1 h
    rw [hexec, hexec]
    simp only [h, junction]

/-- Witness of C15: with instrumented handlers, no interceptor at construction, and
the instrumented `J` (name 7) attached to `A` after `c := A.Then(B)` was built, one
`c.Execute` on 3 records `A(3), J(6), B(6)`. -/
theorem later_intercept_rebinds_first_operand_witness :
    (recordH 0 Example.double () (some 3) [] (([] : List (Event Example.M)), ())
        = (((some 6 : Example.M), (none : Option String)), ([Event.handler 0 (some 3) []], ())))
    ∧ Pipe.Execute (composed (recordH 0 Example.double) (recordH 1 Example.addOne) none []).1
        () (some 3)
        (Pipe.Intercept (operandA (recordH 0 Example.double) [])
          (some (recordI 7 Example.quiet))
          (composed (recordH 0 Example.double) (recordH 1 Example.addOne) none []).2).2
        ([], ())
      = (((some 7 : Example.M), (none : Option String)),
          ([Event.handler 0 (some 3) [], Event.interceptor 7 (some 6) [],
            Event.handler 1 (some 6) []], ())) :=
  ⟨rfl,
    (((later_intercept_rebinds_first_operand (recordH 0 Example.double)
      (recordH 1 Example.addOne) none (recordI 7 Example.quiet) [] () (some 3)
      ([], ())).2.1 (some 6) ([Event.handler 0 (some 3) []], ()) rfl).2).trans rfl⟩

/-- Counterexample to C15 as stated: `c := A.Then(B)` is built while `A` has no
interceptor; before `A.Intercept(J)` one `c.Execute` records no interceptor call,
after it the same `c.Execute` records one. -/
theorem later_intercept_changes_composed :
    interceptorCount
        (Pipe.Execute (composed (recordH 0 Example.double) (recordH 1 Example.addOne) none []).1
          () (some 3)
          (composed (recordH 0 Example.double) (recordH 1 Example.addOne) none []).2
          (([] : List (Event Example.M)), ())).2.1 = 0
    ∧ interceptorCount
        (Pipe.Execute (composed (recordH 0 Example.double) (recordH 1 Example.addOne) none []).1
          () (some 3)
          (Pipe.Intercept (operandA (recordH 0 Example.double) [])
            (some (recordI 7 Example.quiet))
            (composed (recordH 0 Example.double) (recordH 1 Example.addOne) none []).2).2
          (([] : List (Event Example.M)), ())).2.1 = 1
    ∧ Pipe.Execute (composed (recordH 0 Example.double) (recordH 1 Example.addOne) none []).1
          () (some 3)
          (Pipe.Intercept (operandA (recordH 0 Example.double) [])
            (some (recordI 7 Example.quiet))
            (composed (recordH 0 Example.double) (recordH 1 Example.addOne) none []).2).2
          (([] : List (Event Example.M)), ())
      ≠ Pipe.Execute (composed (recordH 0 Example.double) (recordH 1 Example.addOne) none []).1
          () (some 3)
          (composed (recordH 0 Example.double) (recordH 1 Example.addOne) none []).2
          (([] : List (Event Example.M)), ()) :=
  ⟨rfl, rfl, fun h => absurd (congrArg (fun r => interceptorCount r.2.1) h) (by decide)⟩

lemma pipeline_one_handler (J : Option (Interceptor Msg (List (Event Msg) × τ)))
    (hA hB : Handler Ctx Msg Err τ) (jB : Option (Interceptor Msg (List (Event Msg) × τ)))
    (s ext : Store Msg (List (Event Msg) × τ)) (ctx : Ctx) (m a : Msg)
    (opts : List PipeOption) (log : List (Event Msg)) (t t1 : τ)
    (h : hA ctx m [] t = ((a, none), t1)) :
    (pipeline J hA [(hB, jB)] s).1.handler ((pipeline J hA [(hB, jB)] s).2 ++ ext) ctx m opts
        (log, t)
      = recordH 1 hB ctx a []
          (callInterceptor J a opts (log ++ [Event.handler 0 m []], t1)) := by
  have hl : s.length < (s ++ [none] : Store Msg (List (Event Msg) × τ)).length := by simp
  have hw : s.length < (Store.write (s ++ [none]) s.length J).length := by
    rw [Store.length_write]; exact hl
  have hst : (pipeline J hA [(hB, jB)] s).2
      = Store.write (s ++ [none]) s.length J
        ++ [Store.read (Store.write (s ++ [none]) s.length J) s.length] := rfl
  have hread : Store.read ((pipeline J hA [(hB, jB)] s).2 ++ ext) s.length = J := by
    rw [hst, List.append_assoc, Store.read_append _ _ _ hw, Store.read_write_same _ _ _ hl]
  have hh : (pipeline J hA [(hB, jB)] s).1.handler
      = Pipe.Then.handler (NewPipe (recordH 0 hA) s).1
          { handler := fun _ => recordH 1 hB, interceptor := jB } := rfl
  have hA0 : (NewPipe (recordH 0 hA) s).1.handler ((pipeline J hA [(hB, jB)] s).2 ++ ext)
      ctx m [] (log, t) = ((a, none), (log ++ [Event.handler 0 m []], t1)) := by
    simp only [NewPipe, recordH, h]
  rw [hh, Then.handler_ok _ _ _ ctx m a opts (log, t) _ hA0]
  have haddr : (NewPipe (recordH 0 hA) s).1.addr = s.length := rfl
  rw [haddr, hread]

/-- Claim C16. Options that reach the handler of a composed pipe are forwarded to the
interceptor only. With instrumented `A` (interceptor `I` attached before composing)
and `B`, on an input on which the handler of `A` succeeds with output `a`: the handler
of `A.Then(B)` called with `opts` records `A` called with no options, `I` called with
`(a, opts)`, and `B` called with no options; so does `Execute` on
`A.Then(B).WithOptions(opts...)`; and through plain `Execute` the interceptor
receives no options. -/
theorem options_reach_interceptor_only (name : Nat) (hA hB : Handler Ctx Msg Err τ)
    (i : Interceptor Msg τ) (jB : Option (Interceptor Msg (List (Event Msg) × τ)))
    (s : Store Msg (List (Event Msg) × τ)) (ctx : Ctx) (m a : Msg) (opts : List PipeOption)
    (log : List (Event Msg)) (t t1 : τ)
    (h : hA ctx m [] t = ((a, none), t1)) :
    (pipeline (some (recordI name i)) hA [(hB, jB)] s).1.handler
        (pipeline (some (recordI name i)) hA [(hB, jB)] s).2 ctx m opts (log, t)
      = ((hB ctx a [] (i a opts t1)).1,
          (log ++ [Event.handler 0 m [], Event.interceptor name a opts, Event.handler 1 a []],
            (hB ctx a [] (i a opts t1)).2))
    ∧ Pipe.Execute
        (Pipe.addressOf
          (Pipe.WithOptions (pipeline (some (recordI name i)) hA [(hB, jB)] s).1 opts
            (pipeline (some (recordI name i)) hA [(hB, jB)] s).2).1
          (Pipe.WithOptions (pipeline (some (recordI name i)) hA [(hB, jB)] s).1 opts
            (pipeline (some (recordI name i)) hA [(hB, jB)] s).2).2).1 ctx m
        (Pipe.addressOf
          (Pipe.WithOptions (pipeline (some (recordI name i)) hA [(hB, jB)] s).1 opts
            (pipeline (some (recordI name i)) hA [(hB, jB)] s).2).1
          (Pipe.WithOptions (pipeline (some (recordI name i)) hA [(hB, jB)] s).1 opts
            (pipeline (some (recordI name i)) hA [(hB, jB)] s).2).2).2 (log, t)
      = ((hB ctx a [] (i a opts t1)).1,
          (log ++ [Event.handler 0 m [], Event.interceptor name a opts, Event.handler 1 a []],
            (hB ctx a [] (i a opts t1)).2))
    ∧ Pipe.Execute (pipeline (some (recordI name i)) hA [(hB, jB)] s).1 ctx m
        (pipeline (some (recordI name i)) hA [(hB, jB)] s).2 (log, t)
      = ((hB ctx a [] (i a [] t1)).1,
          (log ++ [Event.handler 0 m [], Event.interceptor name a [], Event.handler 1 a []],
            (hB ctx a [] (i a [] t1)).2)) := by
  have key : ∀ (ext : Store Msg (List (Event Msg) × τ)) (o : List PipeOption),
      (pipeline (some (recordI name i)) hA [(hB, jB)] s).1.handler
          ((pipeline (some (recordI name i)) hA [(hB, jB)] s).2 ++ ext) ctx m o (log, t)
        = ((hB ctx a [] (i a o t1)).1,
            (log ++ [Event.handler 0 m [], Event.interceptor name a o, Event.handler 1 a []],
              (hB ctx a [] (i a o t1)).2)) := by
    intro ext o
    rw [pipeline_one_handler _ hA hB jB s ext ctx m a o log t t1 h]
    simp [callInterceptor, recordI, recordH]
  refine ⟨?_, ?_, ?_⟩
  · have := key [] opts
    rw [List.append_nil] at this
    exact this
  · exact key _ opts
  · have := key [] []
    rw [List.append_nil] at this
    exact this

/-- Witness of C16: `A.Then(B)` with the interceptor named 9 on `A`, called with the
two options `optP, optQ` on 3, records `A(3)` with no options, the interceptor on 6
with both options, and `B(6)` with no options. -/
theorem options_reach_interceptor_only_witness :
    ((Example.double : Handler Unit Example.M String Unit) () (some 3) [] ()
        = ((some 6, none), ()))
    ∧ (pipeline (some (recordI 9 Example.quiet)) Example.double
          [(Example.addOne, none)] []).1.handler
        (pipeline (some (recordI 9 Example.quiet)) Example.double
          [(Example.addOne, none)] []).2 () (some 3) [Example.optP, Example.optQ] ([], ())
      = (((some 7 : Example.M), (none : Option String)),
          ([Event.handler 0 (some 3) [],
            Event.interceptor 9 (some 6) [Example.optP, Example.optQ],
            Event.handler 1 (some 6) []], ())) :=
  ⟨rfl,
    (options_reach_interceptor_only 9 Example.double Example.addOne Example.quiet none []
      () (some 3) (some 6) [Example.optP, Example.optQ] [] () () rfl).1.trans rfl⟩

end LateBindingTheorems

section NestingTheorems

variable {Ctx Msg Err τ : Type} [Inhabited Msg]

omit [Inhabited Msg] in
lemma nestStore_reads (JA JB : Option (Interceptor Msg (List (Event Msg) × τ)))
    (hA hB : Handler Ctx Msg Err τ) (s : Store Msg (List (Event Msg) × τ)) :
    (nestA hA s).addr < (nestStore JA JB hA hB s).length
    ∧ (nestB JA hA hB s).addr < (nestStore JA JB hA hB s).length
    ∧ Store.read (nestStore JA JB hA hB s) (nestA hA s).addr = JA
    ∧ Store.read (nestStore JA JB hA hB s) (nestB JA hA hB s).addr = JB := by
  have hl : s.length < (s ++ [none] : Store Msg (List (Event Msg) × τ)).length := by simp
  have hw : s.length < (Store.write (s ++ [none]) s.length JA).length := by
    rw [Store.length_write]; exact hl
  have hb : (Store.write (s ++ [none]) s.length JA).length
      < (Store.write (s ++ [none]) s.length JA ++ [none]).length := by simp
  have hst : nestStore JA JB hA hB s
      = Store.write (Store.write (s ++ [none]) s.length JA ++ [none])
          (Store.write (s ++ [none]) s.length JA).length JB := rfl
  have haA : (nestA hA s).addr = s.length := rfl
  have haB : (nestB JA hA hB s).addr = (Store.write (s ++ [none]) s.length JA).length := rfl
  rw [hst, haA, haB, Store.length_write]
  refine ⟨lt_trans hw hb, hb, ?_, Store.read_write_same _ _ _ hb⟩
  rw [Store.read_write_other _ _ _ _ (Nat.ne_of_gt hw), Store.read_append _ _ _ hw,
    Store.read_write_same _ _ _ hl]

omit [Inhabited Msg] in
lemma callInterceptor_recorded (name : Nat) (oi : Option (Interceptor Msg τ)) (a : Msg)
    (o : List PipeOption) (log : List (Event Msg)) (t : τ) :
    callInterceptor (oi.map (recordI name)) a o (log, t)
      = (log ++ (match oi with
          | some _ => [Event.interceptor name a o]
          | none => []), callInterceptor oi a o t) := by
  cases oi <;> simp [callInterceptor, recordI]

lemma leftNesting_execute (JA JB : Option (Interceptor Msg (List (Event Msg) × τ)))
    (hA hB : Handler Ctx Msg Err τ) (C : Pipe Ctx Msg Err (List (Event Msg) × τ))
    (s : Store Msg (List (Event Msg) × τ)) (ctx : Ctx) (m : Msg) (w : List (Event Msg) × τ) :
    Pipe.Execute (leftNesting JA JB hA hB C s).1 ctx m (leftNesting JA JB hA hB C s).2 w
      = junction JA (leftNesting JA JB hA hB C s).2 ctx
          (junction JA (leftNesting JA JB hA hB C s).2 ctx (recordH 0 hA ctx m [] w)
            { handler := fun _ => recordH 1 hB, interceptor := JB }) C := by
  obtain ⟨hva, _, rA, rB⟩ := nestStore_reads JA JB hA hB s
  have h := thenChain_execute ctx m w
    [PipePtr.deref (nestB JA hA hB s) (nestStore JA JB hA hB s), C] (nestA hA s)
    (nestStore JA JB hA hB s) hva
  rw [rA] at h
  have hd : PipePtr.deref (nestB JA hA hB s) (nestStore JA JB hA hB s)
      = { handler := fun _ => recordH 1 hB, interceptor := JB } := by
    simp only [PipePtr.deref, rB]
    rfl
  rw [hd] at h
  exact h

lemma rightNesting_execute (JA JB : Option (Interceptor Msg (List (Event Msg) × τ)))
    (hA hB : Handler Ctx Msg Err τ) (C : Pipe Ctx Msg Err (List (Event Msg) × τ))
    (s : Store Msg (List (Event Msg) × τ)) (ctx : Ctx) (m : Msg) (w : List (Event Msg) × τ) :
    Pipe.Execute (rightNesting JA JB hA hB C s).1 ctx m (rightNesting JA JB hA hB C s).2 w
      = junction JA (rightNesting JA JB hA hB C s).2 ctx (recordH 0 hA ctx m [] w)
          { handler := fun st ctx0 x _ w0 =>
              junction JB st ctx0 (recordH 1 hB ctx0 x [] w0) C,
            interceptor := JB } := by
  obtain ⟨hva, hvb, rA, rB⟩ := nestStore_reads JA JB hA hB s
  have hst : (rightNesting JA JB hA hB C s).2
      = nestStore JA JB hA hB s ++ [Store.read (nestStore JA JB hA hB s) (nestB JA hA hB s).addr]
        ++ [Store.read (nestStore JA JB hA hB s
            ++ [Store.read (nestStore JA JB hA hB s) (nestB JA hA hB s).addr])
              (nestA hA s).addr] := rfl
  have hva1 : (nestA hA s).addr < (nestStore JA JB hA hB s
      ++ [Store.read (nestStore JA JB hA hB s) (nestB JA hA hB s).addr]).length := by
    rw [List.length_append]; omega
  have hvb1 : (nestB JA hA hB s).addr < (nestStore JA JB hA hB s
      ++ [Store.read (nestStore JA JB hA hB s) (nestB JA hA hB s).addr]).length := by
    rw [List.length_append]; omega
  have rA2 : Store.read (rightNesting JA JB hA hB C s).2 (nestA hA s).addr = JA := by
    rw [hst, Store.read_append _ _ _ hva1, Store.read_append _ _ _ hva, rA]
  have rB2 : Store.read (rightNesting JA JB hA hB C s).2 (nestB JA hA hB s).addr = JB := by
    rw [hst, Store.read_append _ _ _ hvb1, Store.read_append _ _ _ hvb, rB]
  have hh : Pipe.Execute (rightNesting JA JB hA hB C s).1 ctx m
      (rightNesting JA JB hA hB C s).2 w
      = Pipe.Then.handler (nestA hA s)
          (PipePtr.deref (Pipe.Then (nestB JA hA hB s) C (nestStore JA JB hA hB s)).1
            (Pipe.Then (nestB JA hA hB s) C (nestStore JA JB hA hB s)).2)
          (rightNesting JA JB hA hB C s).2 ctx m [] w := rfl
  rw [hh, Then.handler_junction, rA2]
  have hA0 : (nestA hA s).handler (rightNesting JA JB hA hB C s).2 ctx m [] w
      = recordH 0 hA ctx m [] w := rfl
  rw [hA0]
  rcases hr : recordH 0 hA ctx m [] w with ⟨⟨a, e⟩, w1⟩
  cases e with
  | some e => rfl
  | none =>
    show Pipe.Then.handler (nestB JA hA hB s) C (rightNesting JA JB hA hB C s).2 ctx a []
        (callInterceptor JA a [] w1)
      = junction JB (rightNesting JA JB hA hB C s).2 ctx
          (recordH 1 hB ctx a [] (callInterceptor JA a [] w1)) C
    rw [Then.handler_junction, rB2]
    rfl

/-- Claim C17. `Then` is associative on results. For instrumented pipes `A`, `B`
(each with or without an instrumented interceptor) and `C`, where the result of the
handler of `C` does not depend on the state it runs in, `(A.Then(B)).Then(C)` and
`A.Then(B.Then(C))` return the same `(message, error)` pair on every input, whether
all handlers succeed or one of them fails, and record the same handler calls in the
same order; the two logs differ at most in their interceptor calls. -/
theorem then_associative_on_results (oiA oiB : Option (Interceptor Msg τ))
    (jC : Option (Interceptor Msg (List (Event Msg) × τ)))
    (hA hB hC : Handler Ctx Msg Err τ) (s : Store Msg (List (Event Msg) × τ))
    (ctx : Ctx) (m : Msg) (log : List (Event Msg)) (t : τ)
    (hdet : ∀ (x : Msg) (u u0 : τ), (hC ctx x [] u).1 = (hC ctx x [] u0).1) :
    (Pipe.Execute
        (leftNesting (oiA.map (recordI 10)) (oiB.map (recordI 11)) hA hB
          { handler := fun _ => recordH 2 hC, interceptor := jC } s).1 ctx m
        (leftNesting (oiA.map (recordI 10)) (oiB.map (recordI 11)) hA hB
          { handler := fun _ => recordH 2 hC, interceptor := jC } s).2 (log, t)).1
      = (Pipe.Execute
        (rightNesting (oiA.map (recordI 10)) (oiB.map (recordI 11)) hA hB
          { handler := fun _ => recordH 2 hC, interceptor := jC } s).1 ctx m
        (rightNesting (oiA.map (recordI 10)) (oiB.map (recordI 11)) hA hB
          { handler := fun _ => recordH 2 hC, interceptor := jC } s).2 (log, t)).1
    ∧ (Pipe.Execute
        (leftNesting (oiA.map (recordI 10)) (oiB.map (recordI 11)) hA hB
          { handler := fun _ => recordH 2 hC, interceptor := jC } s).1 ctx m
        (leftNesting (oiA.map (recordI 10)) (oiB.map (recordI 11)) hA hB
          { handler := fun _ => recordH 2 hC, interceptor := jC } s).2
        (log, t)).2.1.filter Event.isHandler
      = (Pipe.Execute
        (rightNesting (oiA.map (recordI 10)) (oiB.map (recordI 11)) hA hB
          { handler := fun _ => recordH 2 hC, interceptor := jC } s).1 ctx m
        (rightNesting (oiA.map (recordI 10)) (oiB.map (recordI 11)) hA hB
          { handler := fun _ => recordH 2 hC, interceptor := jC } s).2
        (log, t)).2.1.filter Event.isHandler := by
  rw [leftNesting_execute, rightNesting_execute]
  rcases hrA : hA ctx m [] t with ⟨⟨a, eA⟩, t1⟩
  have h0 : recordH 0 hA ctx m [] (log, t)
      = ((a, eA), (log ++ [Event.handler 0 m []], t1)) := by
    simp only [recordH, hrA]
  rw [h0]
  cases eA with
  | some e => exact ⟨rfl, rfl⟩
  | none =>
    simp only [junction, callInterceptor_recorded]
    rcases hrB : hB ctx a [] (callInterceptor oiA a [] t1) with ⟨⟨b, eB⟩, t2⟩
    simp only [recordH, hrB]
    cases eB with
    | some e => exact ⟨rfl, rfl⟩
    | none =>
      simp only [callInterceptor_recorded]
      refine ⟨?_, ?_⟩
      · rw [hdet b (callInterceptor oiA b [] t2) (callInterceptor oiB b [] t2)]
      · cases oiA <;> cases oiB <;> simp [List.filter_cons, Event.isHandler]

/-- Witness of C17: with `A` doubling, `B` adding one, `C` doubling and an
instrumented interceptor on each of `A` and `B`, both nestings return 14 on 3; the
left one records the interceptor of `A` at both junctions, the right one records the
interceptor of `B` at the second. -/
theorem then_associative_on_results_witness :
    (∀ (x : Example.M) (u u0 : Unit),
      ((Example.double : Handler Unit Example.M String Unit) () x [] u).1
        = ((Example.double : Handler Unit Example.M String Unit) () x [] u0).1)
    ∧ (Pipe.Execute
        (leftNesting ((some Example.quiet).map (recordI 10))
          ((some Example.quiet).map (recordI 11)) Example.double Example.addOne
          { handler := fun _ => recordH 2 Example.double, interceptor := none } []).1 ()
        (some 3)
        (leftNesting ((some Example.quiet).map (recordI 10))
          ((some Example.quiet).map (recordI 11)) Example.double Example.addOne
          { handler := fun _ => recordH 2 Example.double, interceptor := none } []).2
        ([], ())).1
      = (Pipe.Execute
        (rightNesting ((some Example.quiet).map (recordI 10))
          ((some Example.quiet).map (recordI 11)) Example.double Example.addOne
          { handler := fun _ => recordH 2 Example.double, interceptor := none } []).1 ()
        (some 3)
        (rightNesting ((some Example.quiet).map (recordI 10))
          ((some Example.quiet).map (recordI 11)) Example.double Example.addOne
          { handler := fun _ => recordH 2 Example.double, interceptor := none } []).2
        ([], ())).1
    ∧ Pipe.Execute
        (leftNesting ((some Example.quiet).map (recordI 10))
          ((some Example.quiet).map (recordI 11)) Example.double Example.addOne
          { handler := fun _ => recordH 2 Example.double, interceptor := none } []).1 ()
        (some 3)
        (leftNesting ((some Example.quiet).map (recordI 10))
          ((some Example.quiet).map (recordI 11)) Example.double Example.addOne
          { handler := fun _ => recordH 2 Example.double, interceptor := none } []).2
        ([], ())
      = (((some 14 : Example.M), (none : Option String)),
          ([Event.handler 0 (some 3) [], Event.interceptor 10 (some 6) [],
            Event.handler 1 (some 6) [], Event.interceptor 10 (some 7) [],
            Event.handler 2 (some 7) []], ()))
    ∧ Pipe.Execute
        (rightNesting ((some Example.quiet).map (recordI 10))
          ((some Example.quiet).map (recordI 11)) Example.double Example.addOne
          { handler := fun _ => recordH 2 Example.double, interceptor := none } []).1 ()
        (some 3)
        (rightNesting ((some Example.quiet).map (recordI 10))
          ((some Example.quiet).map (recordI 11)) Example.double Example.addOne
          { handler := fun _ => recordH 2 Example.double, interceptor := none } []).2
        ([], ())
      = (((some 14 : Example.M), (none : Option String)),
          ([Event.handler 0 (some 3) [], Event.interceptor 10 (some 6) [],
            Event.handler 1 (some 6) [], Event.interceptor 11 (some 7) [],
            Event.handler 2 (some 7) []], ())) :=
  ⟨fun _ _ _ => rfl,
    (then_associative_on_results (some Example.quiet) (some Example.quiet) none
      Example.double Example.addOne Example.double [] () (some 3) [] ()
      (fun _ _ _ => rfl)).1,
    rfl, rfl⟩

end NestingTheorems

end Agency
